import Mathlib

/-!
Verification model of the KQL-flavoured query engine in `kql_engine.py`
(`KQLEngine`): the query lexer (`_parse_query`), the argument tokenizer and
literal parser (`_parse_arguments`, `_parse_value`), the stage operators
(`_where`, `_summarize`, `_project`, `_extend`, `_sort`, `_take`, `_count`,
`_distinct`, `_sample`, `_top`, `_make_list`, `_mv_expand`, `_join`,
`_union`) and the pipeline executor (`execute_query`).

Modelling conventions, stated once here:
* Tables are a column-name list plus a row list; the pandas row index (row
  labels) is not modelled, so boolean filtering is positional and the
  zero-argument `sort` (pandas `sort_index`) is the identity.
* Python floats are modelled as exact rationals; the binary rounding of
  `float(...)` is outside the model, and no claim depends on a float value.
* Exceptions are modelled as `Except String`; the message strings follow the
  shape of the Python messages but do not reproduce `repr` quoting (the
  model writes `KeyError: col` where Python shows the quoted column name).
* `sample` draws from `numpy`'s global generator; the model takes the drawn
  index list as an explicit `sampler` argument, so every theorem quantifies
  over it.
* `where ... contains` hands the literal to `str.contains`, i.e. compiles it
  as a regular expression with `re.IGNORECASE`; the regular-expression engine
  is outside this model and is taken as an explicit `matcher` oracle mapping
  a pattern to either a compile error or a total match predicate.
* `select_dtypes(include=[np.number])` selects columns by their *dtype*, a
  frame property that a value-level table does not carry (an object column
  holding only integers is not numeric-dtyped); the selection is taken as an
  explicit `sel` oracle argument.
* `sort_values` on a single column defaults to `kind=quicksort`, whose order
  on equal keys is unspecified; the model realises the stable refinement and
  theorems assert stability only on the multi-column lexsort path, which is
  stable.  Comparison outcomes that are not value-determined (`NaN` taking
  part in an ordered comparison inside a list, where CPython's identity
  shortcut in `==` decides) are modelled as unsortable.
-/

namespace KE

/-! ### Values (the dynamically-typed literals of `_parse_value`) -/

/-- Tagged union for the Python values the engine manipulates:
`None`/`NaN`, `bool`, `int`, `float` (as an exact rational), `str`, `list`. -/
inductive Value where
  | vnull : Value
  | vbool (b : Bool) : Value
  | vint (n : Int) : Value
  | vfloat (q : ℚ) : Value
  | vstr (s : String) : Value
  | vlist (l : List Value) : Value

mutual

/-- Structural equality of values (Python `==` on equal-typed values). -/
def Value.beq : Value → Value → Bool
  | .vnull, .vnull => true
  | .vbool a, .vbool b => a == b
  | .vint a, .vint b => a == b
  | .vfloat a, .vfloat b => a == b
  | .vstr a, .vstr b => a == b
  | .vlist a, .vlist b => Value.beqList a b
  | _, _ => false

/-- Elementwise equality of value lists. -/
def Value.beqList : List Value → List Value → Bool
  | [], [] => true
  | a :: as_, b :: bs => Value.beq a b && Value.beqList as_ bs
  | _, _ => false

end

instance : BEq Value := ⟨Value.beq⟩

mutual

theorem Value.eq_of_beq : ∀ {a b : Value}, Value.beq a b = true → a = b
  | .vnull, .vnull, _ => rfl
  | .vbool _, .vbool _, h => by
      simp only [Value.beq, beq_iff_eq] at h; simp [h]
  | .vint _, .vint _, h => by
      simp only [Value.beq, beq_iff_eq] at h; simp [h]
  | .vfloat _, .vfloat _, h => by
      simp only [Value.beq, beq_iff_eq] at h; simp [h]
  | .vstr _, .vstr _, h => by
      simp only [Value.beq, beq_iff_eq] at h; simp [h]
  | .vlist a, .vlist b, h => by
      have := Value.eqList_of_beqList (a := a) (b := b) h
      simp [this]

theorem Value.eqList_of_beqList : ∀ {a b : List Value},
    Value.beqList a b = true → a = b
  | [], [], _ => rfl
  | a :: as_, b :: bs, h => by
      simp only [Value.beqList, Bool.and_eq_true] at h
      have h1 := Value.eq_of_beq h.1
      have h2 := Value.eqList_of_beqList h.2
      simp [h1, h2]

end

mutual

theorem Value.beq_rfl : ∀ (a : Value), Value.beq a a = true
  | .vnull => rfl
  | .vbool _ => by simp [Value.beq]
  | .vint _ => by simp [Value.beq]
  | .vfloat _ => by simp [Value.beq]
  | .vstr _ => by simp [Value.beq]
  | .vlist l => by simp [Value.beq, Value.beqList_rfl l]

theorem Value.beqList_rfl : ∀ (l : List Value), Value.beqList l l = true
  | [] => rfl
  | a :: as_ => by simp [Value.beqList, Value.beq_rfl a, Value.beqList_rfl as_]

end

instance : LawfulBEq Value where
  eq_of_beq := Value.eq_of_beq
  rfl := Value.beq_rfl _

/-- Decidable propositional equality, derived from the lawful `BEq`. -/
instance : DecidableEq Value := fun a b =>
  if h : Value.beq a b = true then .isTrue (Value.eq_of_beq h)
  else .isFalse (fun he => h (he ▸ Value.beq_rfl a))

/-! ### Python string primitives

All scanners below are structural recursions over `List Char`, so they
reduce in the kernel; each mirrors the corresponding CPython semantics
(left-to-right, non-overlapping matches). -/

/-- Python `str.lower()` restricted to ASCII (character-wise, unlike the
byte-position recursion of `String.toLower`, so it reduces in the kernel). -/
def lowerS (s : String) : String := ⟨s.data.map Char.toLower⟩

/-- Python `str.upper()` restricted to ASCII. -/
def upperS (s : String) : String := ⟨s.data.map Char.toUpper⟩

/-- ASCII whitespace recognised by `str.strip` and by `\\s` in the stage
pattern. -/
def isSpaceC (c : Char) : Bool :=
  c == ' ' || c == '\t' || c == '\n' || c == '\r' || c == '\x0b' || c == '\x0c'

/-- Python `str.strip()` on a character list. -/
def pyStrip (l : List Char) : List Char :=
  ((l.dropWhile isSpaceC).reverse.dropWhile isSpaceC).reverse

/-- Python `str.strip()`. -/
def strip (s : String) : String := ⟨pyStrip s.data⟩

/-- Python `pat in s` for a non-empty pattern: scan every suffix. -/
def hasPat (pat : List Char) : List Char → Bool
  | [] => false
  | c :: cs => pat.isPrefixOf (c :: cs) || hasPat pat cs

/-- Python `s.split(pat, 1)` core: first occurrence of `pat`, returning the
text before it and the text after it, or `none` when `pat` never occurs. -/
def splitFirst (pat : List Char) : List Char → Option (List Char × List Char)
  | [] => none
  | c :: cs =>
    if pat.isPrefixOf (c :: cs) then some ([], (c :: cs).drop pat.length)
    else match splitFirst pat cs with
      | none => none
      | some (a, b) => some (c :: a, b)

/-- Python `s.split(sep)` for a single-character separator. -/
def splitChar (sep : Char) : List Char → List (List Char)
  | [] => [[]]
  | c :: cs =>
    if c == sep then [] :: splitChar sep cs
    else match splitChar sep cs with
      | [] => [[c]]
      | p :: ps => (c :: p) :: ps

/-- Python `s.split("and")` as used by `_where` on the condition string. -/
def splitOnAnd : List Char → List (List Char)
  | 'a' :: 'n' :: 'd' :: rest => [] :: splitOnAnd rest
  | c :: cs =>
    match splitOnAnd cs with
    | [] => [[c]]
    | p :: ps => (c :: p) :: ps
  | [] => [[]]

/-- Python `s.replace("==", "=")` as used by `_where` (non-overlapping,
left to right). -/
def replaceEq : List Char → List Char
  | '=' :: '=' :: rest => '=' :: replaceEq rest
  | c :: cs => c :: replaceEq cs
  | [] => []

/-- Decimal digits to a natural number. -/
def digitsToNat (l : List Char) : Nat :=
  l.foldl (fun acc c => acc * 10 + (c.toNat - 48)) 0

/-- Python `int(s)` on an already-stripped literal: optional sign then
digits (digit-group underscores are not modelled). -/
def pyParseInt (l : List Char) : Option Int :=
  let core : List Char → Option Int := fun ds =>
    if ds ≠ [] && ds.all Char.isDigit then some (digitsToNat ds) else none
  match l with
  | '+' :: r => core r
  | '-' :: r => (core r).map (fun n => -n)
  | r => core r

/-- Splits a float literal at the first exponent marker `e`/`E`. -/
def splitExp : List Char → List Char × Option (List Char)
  | [] => ([], none)
  | c :: cs =>
    if c == 'e' || c == 'E' then ([], some cs)
    else
      let (m, e) := splitExp cs
      (c :: m, e)

/-- Python `float(s)` on an already-stripped literal, as an exact rational
(the binary rounding of CPython floats is deliberately not modelled). -/
def pyParseFloat (l : List Char) : Option ℚ :=
  let signed : List Char → Option ℚ → Option ℚ := fun _ x => x
  let body : List Char → Option ℚ := fun m =>
    let (mant, expPart) := splitExp m
    let mantVal : Option ℚ :=
      match splitChar '.' mant with
      | [a] => if a ≠ [] && a.all Char.isDigit then some (digitsToNat a) else none
      | [a, b] =>
        if (a ++ b) ≠ [] && a.all Char.isDigit && b.all Char.isDigit then
          some ((digitsToNat a : ℚ) + (digitsToNat b : ℚ) / ((10 : ℚ) ^ b.length))
        else none
      | _ => none
    let expVal : Option Int :=
      match expPart with
      | none => some 0
      | some e => pyParseInt e
    match mantVal, expVal with
    | some q, some e =>
      some (if 0 ≤ e then q * (10 : ℚ) ^ e.toNat else q / (10 : ℚ) ^ (-e).toNat)
    | _, _ => none
  match l with
  | '+' :: r => signed r (body r)
  | '-' :: r => (body r).map (fun q => -q)
  | r => signed r (body r)

mutual

/-- Python `str(v)` as used by `astype(str)`: `NaN` prints `nan`, booleans
`True`/`False`; non-integral rationals are rendered `num/den` where CPython
would print a decimal expansion (no claim depends on that rendering). -/
def pyStr : Value → String
  | .vnull => "nan"
  | .vbool true => "True"
  | .vbool false => "False"
  | .vint n => toString n
  | .vfloat q => if q.den == 1 then toString q.num ++ ".0"
      else toString q.num ++ "/" ++ toString q.den
  | .vstr s => s
  | .vlist l => "[" ++ pyStrList l ++ "]"

/-- Comma-joined rendering of a value list. -/
def pyStrList : List Value → String
  | [] => ""
  | [x] => pyStr x
  | x :: xs => pyStr x ++ ", " ++ pyStrList xs

end

/-! ### Lemmas about the string primitives -/

theorem replaceEq_of_not_hasPat : ∀ {l : List Char},
    hasPat ['=', '='] l = false → replaceEq l = l := by
  intro l h
  induction l using replaceEq.induct with
  | case1 rest ih =>
      exfalso
      simp [hasPat, List.isPrefixOf] at h
  | case2 c cs hne ih =>
      have htail : hasPat ['=', '='] cs = false := by
        simp only [hasPat, Bool.or_eq_false_iff] at h
        exact h.2
      rw [replaceEq]
      · rw [ih htail]
      · exact hne
  | case3 => rfl

theorem splitFirst_eq_append : ∀ (a b : List Char),
    hasPat ['='] a = false →
    splitFirst ['='] (a ++ '=' :: b) = some (a, b) := by
  intro a
  induction a with
  | nil =>
      intro b _
      simp [splitFirst, List.isPrefixOf]
  | cons c cs ih =>
      intro b h
      simp only [hasPat, List.isPrefixOf, Bool.or_eq_false_iff,
        Bool.and_eq_false_iff] at h
      have hc : ¬ ('=' = c) := by
        rcases h.1 with h1 | h1
        · simpa using h1
        · cases h1
      have := ih b h.2
      simp [splitFirst, List.isPrefixOf, hc, List.cons_append, this]

/-! ### Literal parsing (`KQLEngine._parse_value`) -/

/-- Tests whether a character list starts and ends with the given quote
character; as in Python, the length-one string consisting of the quote
alone passes both tests. -/
def wrappedIn (q : Char) (l : List Char) : Bool :=
  (l.head? == some q) && (l.getLast? == some q)

/-- Fuelled body of `_parse_value`; the fuel only bounds the recursion into
parenthesised list elements, whose text is strictly shorter than the
enclosing literal, so `parseValue` below always supplies enough fuel. -/
def parseValueF : Nat → List Char → Value
  | 0, l => .vstr ⟨l⟩
  | fuel + 1, l =>
    if wrappedIn '\'' l then .vstr ⟨(l.drop 1).dropLast⟩
    else if wrappedIn '"' l then .vstr ⟨(l.drop 1).dropLast⟩
    else
      match (if hasPat ['.'] l then (pyParseFloat l).map Value.vfloat
             else (pyParseInt l).map Value.vint) with
      | some v => v
      | none =>
        let low := lowerS ⟨l⟩
        if low == "true" then .vbool true
        else if low == "false" then .vbool false
        else if (l.head? == some '(') && (l.getLast? == some ')') then
          .vlist ((splitChar ',' ((l.drop 1).dropLast)).map
            (fun item => parseValueF fuel (pyStrip item)))
        else .vstr ⟨l⟩

/-- Python `KQLEngine._parse_value`: quoted string, then number, then
boolean, then parenthesised list, then bare string. -/
def parseValue (s : String) : Value :=
  parseValueF (s.data.length + 1) s.data

/-! ### Argument tokenizing (`KQLEngine._parse_arguments`) -/

/-- Parenthesis-depth update of the tokenizer loop (the only state it
tracks besides the current token: quotes are deliberately not tracked). -/
def stepDepth (c : Char) (d : Int) : Int :=
  if c == '(' then d + 1 else if c == ')' then d - 1 else d

/-- One pass of the argument tokenizer loop: `d` is `paren_depth`, `cur` is
`current_token`; returns the emitted (already stripped) tokens, the final
depth and the final unfinished token.  A comma is a boundary exactly when
the depth is `0` after the depth update. -/
def tokRun : List Char → Int → List Char → List String × Int × List Char
  | [], d, cur => ([], d, cur)
  | c :: cs, d, cur =>
    if c == ',' && stepDepth c d == 0 then
      (strip ⟨cur⟩ :: (tokRun cs (stepDepth c d) []).1,
        (tokRun cs (stepDepth c d) []).2)
    else tokRun cs (stepDepth c d) (cur ++ [c])

/-- The token list of a raw argument string: run the loop, then flush the
trailing token when it is non-empty (before stripping, as in the source). -/
def tokenizeArgs (s : String) : List String :=
  let r := tokRun s.data 0 []
  r.1 ++ (if r.2.2 ≠ [] then [strip ⟨r.2.2⟩] else [])

/-- Inserts into the Python-`dict`-like association list: an existing key
keeps its position and takes the new value, a new key is appended. -/
def upsert : List (String × Value) → String → Value → List (String × Value)
  | [], k, v => [(k, v)]
  | (k0, v0) :: rest, k, v =>
    if k0 == k then (k, v) :: rest else (k0, v0) :: upsert rest k v

/-- First-match association lookup (`dict.get`). -/
def lookupKw (kw : List (String × Value)) (k : String) : Option Value :=
  match kw with
  | [] => none
  | (k0, v0) :: rest => if k0 == k then some v0 else lookupKw rest k

/-- Python `KQLEngine._parse_arguments`: split into tokens (paren-depth
aware, quote-blind), then classify each token as `key=value` (split on the
first `=`) or positional. -/
def parseArguments (s : String) : List Value × List (String × Value) :=
  if s == "" then ([], [])
  else
    (tokenizeArgs s).foldl
      (fun acc token =>
        if hasPat ['='] token.data then
          match splitFirst ['='] token.data with
          | some (k, v) =>
            (acc.1, upsert acc.2 (strip ⟨k⟩) (parseValue (strip ⟨v⟩)))
          | none => acc
        else (acc.1 ++ [parseValue token], acc.2))
      ([], [])

/-! ### Query splitting (`KQLEngine._parse_query`) -/

/-- One parsed pipeline stage: lower-cased keyword, positional arguments
and named arguments. -/
structure Op where
  fn : String
  args : List Value
  kwargs : List (String × Value)

/-- Python `\w` restricted to ASCII (the model does not cover non-ASCII
identifiers). -/
def isWordC (c : Char) : Bool := c.isAlphanum || c == '_'

/-- Parses one stripped, non-empty stage text with the source pattern
`(\w+)\s*(.*)`: leading word characters form the keyword, `.*` stops at a
newline, and a stage text starting with a non-word character matches
nothing and is skipped. -/
def parseStagePart (part : String) : Option Op :=
  let kw := part.data.takeWhile isWordC
  if kw == [] then none
  else
    let rest := (part.data.drop kw.length).dropWhile isSpaceC
    let argStr := strip ⟨rest.takeWhile (fun c => !(c == '\n'))⟩
    let ak := parseArguments argStr
    some ⟨lowerS ⟨kw⟩, ak.1, ak.2⟩

/-- Python `KQLEngine._parse_query`: strip, split on every `|`, strip each
part, skip empty parts, parse keyword and arguments. -/
def parseQuery (q : String) : List Op :=
  ((splitChar '|' (pyStrip q.data)).map (fun p => strip ⟨p⟩)).filterMap
    (fun p => if p == "" then none else parseStagePart p)

/-! ### Tokenizer lemmas (for the quoted-comma mis-split) -/

theorem tokRun_append : ∀ (xs ys : List Char) (d : Int) (cur : List Char)
    (ts1 : List String) (d1 : Int) (c1 : List Char),
    tokRun xs d cur = (ts1, d1, c1) →
    tokRun (xs ++ ys) d cur =
      (ts1 ++ (tokRun ys d1 c1).1, (tokRun ys d1 c1).2) := by
  intro xs
  induction xs with
  | nil =>
      intro ys d cur ts1 d1 c1 h
      simp [tokRun] at h
      obtain ⟨h1, h2, h3⟩ := h
      subst h1; subst h2; subst h3
      simp
  | cons c cs ih =>
      intro ys d cur ts1 d1 c1 h
      rw [List.cons_append]
      rw [tokRun] at h ⊢
      by_cases hc : (c == ',' && stepDepth c d == 0) = true
      · simp only [hc, if_true] at h ⊢
        rcases hcs : tokRun cs (stepDepth c d) [] with ⟨ts2, d3, c3⟩
        rw [hcs] at h
        simp only [Prod.mk.injEq] at h
        obtain ⟨h1, h2, h3⟩ := h
        rw [ih ys (stepDepth c d) [] ts2 d3 c3 hcs]
        simp [← h1, h2, h3]
      · simp only [hc, if_false, Bool.false_eq_true] at h ⊢
        exact ih ys (stepDepth c d) (cur ++ [c]) ts1 d1 c1 h

/-! ### Comparators

`pandas` sorting is modelled with explicit `Ordering`-valued comparators
(kernel-reducible, unlike the `String` order instances).  A `CmpPack`
bundles the properties needed to prove sortedness and stability. -/

/-- Laws making an `Ordering`-valued comparator a total preorder with a
congruent equivalence at `.eq`. -/
structure CmpPack (cmp : α → α → Ordering) : Prop where
  refl : ∀ a, cmp a a = .eq
  swap : ∀ a b, cmp a b = (cmp b a).swap
  eqL : ∀ a b c, cmp a b = .eq → cmp a c = cmp b c
  ltTrans : ∀ a b c, cmp a b = .lt → cmp b c = .lt → cmp a c = .lt

theorem CmpPack.eqR {cmp : α → α → Ordering} (P : CmpPack cmp)
    (a b c : α) (h : cmp a b = .eq) : cmp c a = cmp c b := by
  have h1 := P.swap c a
  have h2 := P.swap c b
  rw [h1, h2, P.eqL a b c h]

theorem CmpPack.gtTrans {cmp : α → α → Ordering} (P : CmpPack cmp)
    (a b c : α) (h1 : cmp a b = .gt) (h2 : cmp b c = .gt) :
    cmp a c = .gt := by
  have ha : cmp b a = .lt := by
    have := P.swap a b; rw [h1] at this
    cases hb : cmp b a <;> rw [hb] at this <;> simp [Ordering.swap] at this ⊢
  have hb : cmp c b = .lt := by
    have := P.swap b c; rw [h2] at this
    cases hc : cmp c b <;> rw [hc] at this <;> simp [Ordering.swap] at this ⊢
  have := P.ltTrans c b a hb ha
  have hs := P.swap a c; rw [this] at hs
  simpa [Ordering.swap] using hs

/-- The linear-order comparator; used for `ℕ`, `ℤ`, `ℚ` and `Char`. -/
def cmpLin [LinearOrder α] (a b : α) : Ordering :=
  if a < b then .lt else if b < a then .gt else .eq

theorem cmpLin_eq_iff [LinearOrder α] {a b : α} :
    cmpLin a b = .eq ↔ a = b := by
  unfold cmpLin
  rcases lt_trichotomy a b with h | h | h
  · simp [h, ne_of_lt h]
  · simp [h, lt_irrefl]
  · simp [h, not_lt_of_gt h, ne_of_gt h]

theorem cmpLin_pack [LinearOrder α] : CmpPack (cmpLin (α := α)) := by
  constructor
  · intro a; simp [cmpLin, lt_irrefl]
  · intro a b
    unfold cmpLin
    rcases lt_trichotomy a b with h | h | h
    · simp [h, not_lt_of_gt h, Ordering.swap]
    · simp [h, lt_irrefl, Ordering.swap]
    · simp [h, not_lt_of_gt h, Ordering.swap]
  · intro a b c h
    rw [cmpLin_eq_iff] at h
    rw [h]
  · intro a b c h1 h2
    unfold cmpLin at h1 h2 ⊢
    by_cases hab : a < b
    · by_cases hbc : b < c
      · simp [lt_trans hab hbc]
      · rw [if_neg hbc] at h2
        split at h2 <;> simp_all
    · rw [if_neg hab] at h1
      split at h1 <;> simp_all

/-- Composition of comparators: compare with `c1`, break ties with `c2`. -/
def cmpThen (c1 c2 : α → α → Ordering) (a b : α) : Ordering :=
  (c1 a b).then (c2 a b)

theorem cmpThen_pack {c1 c2 : α → α → Ordering}
    (P1 : CmpPack c1) (P2 : CmpPack c2) : CmpPack (cmpThen c1 c2) := by
  constructor
  · intro a; simp [cmpThen, P1.refl, P2.refl, Ordering.then]
  · intro a b
    unfold cmpThen
    have h1 := P1.swap a b
    have h2 := P2.swap a b
    cases hb : c1 b a <;> rw [hb] at h1 <;>
      simp [Ordering.swap] at h1 <;>
      simp [h1, Ordering.then, Ordering.swap, h2]
  · intro a b c h
    unfold cmpThen at h ⊢
    cases h1 : c1 a b <;> rw [h1] at h <;> simp [Ordering.then] at h
    rw [P1.eqL a b c h1, P2.eqL a b c h]
  · intro a b c h1 h2
    unfold cmpThen at h1 h2 ⊢
    cases ha : c1 a b with
    | lt =>
        cases hb : c1 b c with
        | lt =>
            have hl := P1.ltTrans a b c ha hb
            simp [hl, Ordering.then]
        | eq =>
            have hac := P1.eqR b c a hb
            rw [ha] at hac
            simp [← hac, Ordering.then]
        | gt => rw [hb] at h2; simp [Ordering.then] at h2
    | eq =>
        rw [ha] at h1
        simp [Ordering.then] at h1
        cases hb : c1 b c with
        | lt =>
            have hac := P1.eqL a b c ha
            rw [hb] at hac
            simp [hac, Ordering.then]
        | eq =>
            rw [hb] at h2
            simp [Ordering.then] at h2
            have hac := P1.eqL a b c ha
            rw [hb] at hac
            have h2ac := P2.ltTrans a b c h1 h2
            simp [hac, h2ac, Ordering.then]
        | gt => rw [hb] at h2; simp [Ordering.then] at h2
    | gt => rw [ha] at h1; simp [Ordering.then] at h1

/-- Comparator obtained by comparing the images under `f`. -/
def cmpMap (f : β → α) (cmp : α → α → Ordering) (a b : β) : Ordering :=
  cmp (f a) (f b)

theorem cmpMap_pack {f : β → α} {cmp : α → α → Ordering}
    (P : CmpPack cmp) : CmpPack (cmpMap f cmp) := by
  constructor
  · intro a; exact P.refl (f a)
  · intro a b; exact P.swap (f a) (f b)
  · intro a b c h; exact P.eqL (f a) (f b) (f c) h
  · intro a b c h1 h2; exact P.ltTrans (f a) (f b) (f c) h1 h2

/-- Comparator with all verdicts reversed (descending order). -/
def cmpRev (cmp : α → α → Ordering) (a b : α) : Ordering := (cmp a b).swap

theorem cmpRev_pack {cmp : α → α → Ordering} (P : CmpPack cmp) :
    CmpPack (cmpRev cmp) := by
  constructor
  · intro a; simp [cmpRev, P.refl a, Ordering.swap]
  · intro a b
    unfold cmpRev
    rw [P.swap a b]
  · intro a b c h
    unfold cmpRev at h ⊢
    cases hab : cmp a b with
    | lt => rw [hab] at h; exact absurd h (by decide)
    | gt => rw [hab] at h; exact absurd h (by decide)
    | eq => rw [P.eqL a b c hab]
  · intro a b c h1 h2
    unfold cmpRev at h1 h2 ⊢
    cases hab : cmp a b with
    | lt => rw [hab] at h1; exact absurd h1 (by decide)
    | eq => rw [hab] at h1; exact absurd h1 (by decide)
    | gt =>
        cases hbc : cmp b c with
        | lt => rw [hbc] at h2; exact absurd h2 (by decide)
        | eq => rw [hbc] at h2; exact absurd h2 (by decide)
        | gt =>
            have hg := P.gtTrans a b c hab hbc
            rw [hg]
            decide

/-- Lexicographic extension of a comparator to lists (shorter lists first
at a tie, as in Python tuple ordering). -/
def cmpList (cmp : α → α → Ordering) : List α → List α → Ordering
  | [], [] => .eq
  | [], _ :: _ => .lt
  | _ :: _, [] => .gt
  | a :: as_, b :: bs =>
    match cmp a b with
    | .eq => cmpList cmp as_ bs
    | o => o

theorem cmpList_pack {cmp : α → α → Ordering} (P : CmpPack cmp) :
    CmpPack (cmpList cmp) := by
  constructor
  · intro l
    induction l with
    | nil => rfl
    | cons a as_ ih => simp [cmpList, P.refl a, ih]
  · intro l1
    induction l1 with
    | nil => intro l2; cases l2 <;> simp [cmpList, Ordering.swap]
    | cons a as_ ih =>
        intro l2
        cases l2 with
        | nil => simp [cmpList, Ordering.swap]
        | cons b bs =>
            simp only [cmpList]
            rw [P.swap a b]
            cases cmp b a <;> simp [Ordering.swap, ih bs]
  · intro l1
    induction l1 with
    | nil =>
        intro l2 l3 h
        cases l2 <;> simp [cmpList] at h ⊢
    | cons a as_ ih =>
        intro l2 l3 h
        cases l2 with
        | nil => simp [cmpList] at h
        | cons b bs =>
            simp only [cmpList] at h
            cases hab : cmp a b <;> rw [hab] at h <;> simp at h
            cases l3 with
            | nil => simp [cmpList]
            | cons c cs =>
                simp only [cmpList]
                rw [P.eqL a b c hab, ih bs cs h]
  · intro l1
    induction l1 with
    | nil =>
        intro l2 l3 h1 h2
        cases l2 with
        | nil =>
            cases l3 <;> simp [cmpList] at h1 h2 ⊢
        | cons b bs =>
            cases l3 with
            | nil => simp [cmpList] at h2
            | cons c cs => simp [cmpList]
    | cons a as_ ih =>
        intro l2 l3 h1 h2
        cases l2 with
        | nil => simp [cmpList] at h1
        | cons b bs =>
            cases l3 with
            | nil => simp [cmpList] at h2
            | cons c cs =>
                simp only [cmpList] at h1 h2 ⊢
                cases hab : cmp a b with
                | lt =>
                    cases hbc : cmp b c with
                    | lt => simp [P.ltTrans a b c hab hbc]
                    | eq =>
                        have hac := P.eqR b c a hbc
                        rw [hab] at hac
                        simp [← hac]
                    | gt => rw [hbc] at h2; simp at h2
                | eq =>
                    rw [hab] at h1; simp at h1
                    cases hbc : cmp b c with
                    | lt =>
                        have hac := P.eqL a b c hab
                        rw [hbc] at hac
                        simp [hac]
                    | eq =>
                        rw [hbc] at h2; simp at h2
                        have hac := P.eqL a b c hab
                        rw [hbc] at hac
                        simp [hac, ih bs cs h1 h2]
                    | gt => rw [hbc] at h2; simp at h2
                | gt => rw [hab] at h1; simp at h1

/-- Boolean "not greater" relation of a comparator, the `le` handed to the
sorting routine. -/
def cmpLe (cmp : α → α → Ordering) (a b : α) : Bool := cmp a b != .gt

theorem cmpLe_total {cmp : α → α → Ordering} (P : CmpPack cmp)
    (a b : α) : (cmpLe cmp a b || cmpLe cmp b a) = true := by
  unfold cmpLe
  cases hab : cmp a b with
  | lt => rfl
  | eq => rfl
  | gt =>
      have hs := P.swap a b
      rw [hab] at hs
      cases hba : cmp b a with
      | lt => rfl
      | eq => rw [hba] at hs; simp [Ordering.swap] at hs
      | gt => rw [hba] at hs; simp [Ordering.swap] at hs

theorem cmpLe_trans {cmp : α → α → Ordering} (P : CmpPack cmp)
    (a b c : α) (h1 : cmpLe cmp a b = true) (h2 : cmpLe cmp b c = true) :
    cmpLe cmp a c = true := by
  unfold cmpLe at h1 h2 ⊢
  cases hab : cmp a b with
  | gt => rw [hab] at h1; exact absurd h1 (by decide)
  | lt =>
      cases hbc : cmp b c with
      | gt => rw [hbc] at h2; exact absurd h2 (by decide)
      | lt => rw [P.ltTrans a b c hab hbc]; decide
      | eq =>
          have hac := P.eqR b c a hbc
          rw [hab] at hac
          rw [← hac]
          decide
  | eq =>
      cases hbc : cmp b c with
      | gt => rw [hbc] at h2; exact absurd h2 (by decide)
      | lt =>
          have hac := P.eqL a b c hab
          rw [hbc] at hac
          rw [hac]
          decide
      | eq =>
          have hac := P.eqL a b c hab
          rw [hbc] at hac
          rw [hac]
          decide

theorem cmpLe_refl_of_eq {cmp : α → α → Ordering} (P : CmpPack cmp)
    (a : α) : cmpLe cmp a a = true := by
  unfold cmpLe
  rw [P.refl a]
  decide

/-! ### Stable sorting

`pandas` multi-column `sort_values` delegates to a stable lexicographic
sort (`numpy` lexsort); the model uses a structural insertion sort, which
computes the same result as any stable sort for a total transitive `le`. -/

/-- Inserts `x` before the first element `y` with `le x y`. -/
def insertLe (le : α → α → Bool) (x : α) : List α → List α
  | [] => [x]
  | y :: ys => if le x y then x :: y :: ys else y :: insertLe le x ys

/-- Stable insertion sort. -/
def insSort (le : α → α → Bool) : List α → List α
  | [] => []
  | x :: xs => insertLe le x (insSort le xs)

theorem insertLe_perm (le : α → α → Bool) (x : α) :
    ∀ l : List α, (insertLe le x l).Perm (x :: l) := by
  intro l
  induction l with
  | nil => simp [insertLe]
  | cons y ys ih =>
      unfold insertLe
      by_cases hxy : le x y = true
      · rw [if_pos hxy]
      · rw [if_neg hxy]
        exact (ih.cons y).trans (List.Perm.swap x y ys)

theorem insSort_perm (le : α → α → Bool) :
    ∀ l : List α, (insSort le l).Perm l := by
  intro l
  induction l with
  | nil => simp [insSort]
  | cons x xs ih =>
      exact (insertLe_perm le x (insSort le xs)).trans (ih.cons x)

theorem mem_insertLe (le : α → α → Bool) (x z : α) (l : List α) :
    z ∈ insertLe le x l ↔ z = x ∨ z ∈ l := by
  rw [(insertLe_perm le x l).mem_iff]
  simp

theorem insertLe_pairwise {le : α → α → Bool}
    (htot : ∀ a b, (le a b || le b a) = true)
    (htr : ∀ a b c, le a b = true → le b c = true → le a c = true)
    (x : α) : ∀ l : List α, l.Pairwise (fun a b => le a b = true) →
    (insertLe le x l).Pairwise (fun a b => le a b = true) := by
  intro l
  induction l with
  | nil => intro _; simp [insertLe]
  | cons y ys ih =>
      intro h
      rcases h with - | ⟨hy, hys⟩
      unfold insertLe
      by_cases hxy : le x y = true
      · rw [if_pos hxy]
        refine List.Pairwise.cons ?hd (List.Pairwise.cons hy hys)
        intro z hz
        rcases List.mem_cons.mp hz with hz | hz
        · rw [hz]; exact hxy
        · exact htr x y z hxy (hy z hz)
      · rw [if_neg hxy]
        have hyx : le y x = true := by
          have := htot x y
          rw [Bool.or_eq_true] at this
          rcases this with h1 | h1
          · exact absurd h1 hxy
          · exact h1
        refine List.Pairwise.cons ?hd2 (ih hys)
        intro z hz
        rcases (mem_insertLe le x z ys).mp hz with hz | hz
        · rw [hz]; exact hyx
        · exact hy z hz

theorem insSort_pairwise {le : α → α → Bool}
    (htot : ∀ a b, (le a b || le b a) = true)
    (htr : ∀ a b c, le a b = true → le b c = true → le a c = true) :
    ∀ l : List α, (insSort le l).Pairwise (fun a b => le a b = true) := by
  intro l
  induction l with
  | nil => simp [insSort]
  | cons x xs ih => exact insertLe_pairwise htot htr x (insSort le xs) ih

theorem filter_insertLe_pos {le : α → α → Bool} (p : α → Bool) (x : α)
    (hx : p x = true) :
    ∀ l : List α, (∀ y, y ∈ l → p y = true → le x y = true) →
    (insertLe le x l).filter p = x :: l.filter p := by
  intro l
  induction l with
  | nil => intro _; simp [insertLe, hx]
  | cons y ys ih =>
      intro hcomm
      unfold insertLe
      by_cases hxy : le x y = true
      · rw [if_pos hxy]
        simp [List.filter_cons, hx]
      · rw [if_neg hxy]
        have hpy : p y = false := by
          cases hpy : p y with
          | true => exact absurd (hcomm y (by simp) hpy) hxy
          | false => rfl
        have ih2 := ih (fun z hz hp => hcomm z (by simp [hz]) hp)
        simp [List.filter_cons, hpy, ih2]

theorem filter_insertLe_neg {le : α → α → Bool} (p : α → Bool) (x : α)
    (hx : p x = false) :
    ∀ l : List α, (insertLe le x l).filter p = l.filter p := by
  intro l
  induction l with
  | nil => simp [insertLe, hx]
  | cons y ys ih =>
      unfold insertLe
      by_cases hxy : le x y = true
      · rw [if_pos hxy]
        simp [List.filter_cons, hx]
      · rw [if_neg hxy]
        simp [List.filter_cons, ih]

/-- Stability of the sort: the subsequence of elements in one
`p`-equivalence class is untouched, provided class members compare `le`
with each other in both directions. -/
theorem filter_insSort {le : α → α → Bool} (p : α → Bool)
    (hp : ∀ r s, p r = true → p s = true → le r s = true) :
    ∀ l : List α, (insSort le l).filter p = l.filter p := by
  intro l
  induction l with
  | nil => rfl
  | cons x xs ih =>
      rw [insSort]
      by_cases hx : p x = true
      · rw [filter_insertLe_pos p x hx (insSort le xs)
          (fun y _ hy => hp x y hx hy), ih]
        simp [List.filter_cons, hx]
      · have hx' : p x = false := by
          cases hpx : p x with
          | true => exact absurd hpx hx
          | false => rfl
        rw [filter_insertLe_neg p x hx' (insSort le xs), ih]
        simp [List.filter_cons, hx']

/-! ### Value ordering (the sort key used by `sort_values` and `groupby`)

Nulls sort last in both directions (`na_position` default); within a type
rank, numbers compare numerically (booleans as `0`/`1`) and strings
lexicographically.  Cross-kind comparisons, which raise `TypeError` in
`pandas`, are excluded by the comparability checks of the stage operators;
the comparator itself stays total by ranking kinds. -/

/-- Kind rank: numbers, then strings, then lists, then null (last). -/
def encRank : Value → Nat
  | .vnull => 3
  | .vbool _ => 0
  | .vint _ => 0
  | .vfloat _ => 0
  | .vstr _ => 1
  | .vlist _ => 2

/-- Numeric content of a value, `none` for non-numbers. -/
def numQ : Value → Option ℚ
  | .vbool b => some (if b then 1 else 0)
  | .vint n => some (n : ℚ)
  | .vfloat q => some q
  | _ => none

/-- Numeric sort component. -/
def encQ (v : Value) : ℚ := (numQ v).getD 0

/-! Comparison tokens: a value flattens to a token stream so that the
lexicographic token order realises Python's ordering on each comparison
class — numbers by value, strings by character, lists by the recursive
Python `list` order (elementwise, shorter prefix first).  A token is
`(kind, numeric content, character content)` with kind `0` a list closer,
`1` a number (or null, which the outer rank layer already separates), `2`
a string and `3` a list opener; the closer sorting below every other token
makes a strict prefix compare less, as Python does. -/

mutual

/-- Token stream of one value. -/
def flatV : Value → List (ℕ × ℚ × List Char)
  | .vstr s => [(2, 0, s.data)]
  | .vlist xs => (3, (0 : ℚ), ([] : List Char)) :: (flatL xs ++ [(0, 0, [])])
  | v => [(1, encQ v, [])]

/-- Token stream of a value list (concatenated element streams). -/
def flatL : List Value → List (ℕ × ℚ × List Char)
  | [] => []
  | x :: xs => flatV x ++ flatL xs

end

/-- Token comparator: kind, then numeric content, then characters. -/
def cmpTok : (ℕ × ℚ × List Char) → (ℕ × ℚ × List Char) → Ordering :=
  cmpThen (cmpMap Prod.fst cmpLin)
    (cmpThen (cmpMap (fun t => t.2.1) cmpLin)
      (cmpMap (fun t => t.2.2) (cmpList cmpLin)))

theorem cmpTok_pack : CmpPack cmpTok :=
  cmpThen_pack (cmpMap_pack cmpLin_pack)
    (cmpThen_pack (cmpMap_pack cmpLin_pack)
      (cmpMap_pack (cmpList_pack cmpLin_pack)))

/-- Tie-break comparator inside one kind rank: numbers by value, strings
by character, lists by Python's recursive list order (via the flattened
token streams). -/
def cmpAtoms : Value → Value → Ordering :=
  cmpMap flatV (cmpList cmpTok)

/-- Value comparator; `asc = false` flips the in-rank order but keeps
nulls (rank 3) last as `pandas` does. -/
def cmpVal : Bool → Value → Value → Ordering
  | true => cmpThen (cmpMap encRank cmpLin) cmpAtoms
  | false => cmpThen (cmpMap encRank cmpLin) (cmpRev cmpAtoms)

theorem cmpAtoms_pack : CmpPack cmpAtoms :=
  cmpMap_pack (cmpList_pack cmpTok_pack)

theorem cmpVal_pack (asc : Bool) : CmpPack (cmpVal asc) := by
  cases asc with
  | true => exact cmpThen_pack (cmpMap_pack cmpLin_pack) cmpAtoms_pack
  | false => exact cmpThen_pack (cmpMap_pack cmpLin_pack) (cmpRev_pack cmpAtoms_pack)

/-- Lexicographic row-key comparator. -/
def cmpRow (asc : Bool) : List Value → List Value → Ordering :=
  cmpList (cmpVal asc)

theorem cmpRow_pack (asc : Bool) : CmpPack (cmpRow asc) :=
  cmpList_pack (cmpVal_pack asc)

/-! ### The table model

A `pandas.DataFrame` as consumed by the engine: ordered column names plus
ordered rows of values.  Row labels (the index) are not modelled: boolean
filtering is positional and the no-argument `sort` (`sort_index`) is the
identity on this abstraction. -/

structure DataFrame where
  cols : List String
  rows : List (List Value)
deriving DecidableEq

/-- Position of a column name (`df.columns.get_loc`). -/
def colIdx : List String → String → Option Nat
  | [], _ => none
  | c0 :: rest, c => if c0 == c then some 0 else (colIdx rest c).map (· + 1)

/-- Membership of a column name (`col in df.columns`). -/
def hasCol (cols : List String) (c : String) : Bool := (colIdx cols c).isSome

/-- The cell of row `r` in column `c` (a missing column reads as null;
the operators test `hasCol` before reading, as the source would have
raised `KeyError`). -/
def cellAt (cols : List String) (c : String) (r : List Value) : Value :=
  match colIdx cols c with
  | some i => r.getD i .vnull
  | none => .vnull

/-- The group key of a row for `group_by` columns. -/
def keyCells (cols : List String) (gb : List String) (r : List Value) :
    List Value :=
  gb.map (fun g => cellAt cols g r)

/-- Column extraction (`df[c]`). -/
def getColumn (df : DataFrame) (c : String) : Option (List Value) :=
  (colIdx df.cols c).map (fun i => df.rows.map (fun r => r.getD i .vnull))

/-- Column assignment (`df[c] = vals`): overwrite in place or append. -/
def setColumn (df : DataFrame) (c : String) (vals : List Value) : DataFrame :=
  match colIdx df.cols c with
  | some i => ⟨df.cols, (df.rows.zip vals).map (fun rv => rv.1.set i rv.2)⟩
  | none => ⟨df.cols ++ [c], (df.rows.zip vals).map (fun rv => rv.1 ++ [rv.2])⟩

/-- Positional boolean filtering (`df[mask]`). -/
def filterByMask (rows : List (List Value)) (mask : List Bool) :
    List (List Value) :=
  ((rows.zip mask).filter (fun rm => rm.2)).map (fun rm => rm.1)

/-- Effectful map over a list, stopping at the first error (models a
vectorised pandas operation raising mid-way). -/
def mapE (f : α → Except String β) : List α → Except String (List β)
  | [] => .ok []
  | x :: xs =>
    match f x with
    | .error e => .error e
    | .ok y =>
      match mapE f xs with
      | .error e => .error e
      | .ok ys => .ok (y :: ys)

/-- Value of an `Except`, with a default for the error case. -/
def okD (e : Except String β) (dflt : β) : β :=
  match e with
  | .ok b => b
  | .error _ => dflt

theorem mapE_ok {f : α → Except String β} :
    ∀ {l : List α} {ys : List β}, mapE f l = .ok ys →
    ∀ dflt, ys = l.map (fun x => okD (f x) dflt) := by
  intro l
  induction l with
  | nil =>
      intro ys h dflt
      simp [mapE] at h
      simp [← h]
  | cons x xs ih =>
      intro ys h dflt
      rw [mapE] at h
      cases hx : f x with
      | error e => rw [hx] at h; simp at h
      | ok y =>
          rw [hx] at h
          cases hxs : mapE f xs with
          | error e => rw [hxs] at h; simp at h
          | ok ys0 =>
              rw [hxs] at h
              simp only [Except.ok.injEq] at h
              cases h
              simp [okD, hx, ih hxs dflt]

/-! ### Python value arithmetic and comparisons -/

/-- Null test (`pd.isna`). -/
def isNullV : Value → Bool
  | .vnull => true
  | _ => false

/-- Int or float (the `np.number` dtypes; excludes `bool` as
`select_dtypes(include=[np.number])` does). -/
def isIntFloatV : Value → Bool
  | .vint _ => true
  | .vfloat _ => true
  | _ => false

/-- Int-like for Python `*` string repetition and exact arithmetic. -/
def intLike : Value → Option Int
  | .vint n => some n
  | .vbool b => some (if b then 1 else 0)
  | _ => none

/-- Repeats a string (`s * n` in Python; non-positive `n` gives `""`). -/
def strRepeat (s : String) : Nat → String
  | 0 => ""
  | n + 1 => s ++ strRepeat s n

/-- Python `+` on cell values as used by the `extend` sum expression:
numbers add (NaN absorbs), equal-typed strings concatenate, anything else
raises `TypeError`. -/
def vadd : Value → Value → Except String Value
  | .vstr s, .vstr t => .ok (.vstr (s ++ t))
  | a, b =>
    match numQ a, numQ b with
    | some x, some y =>
      .ok (match intLike a, intLike b with
        | some n, some m => .vint (n + m)
        | _, _ => .vfloat (x + y))
    | _, _ =>
      if isNullV a then
        (if (numQ b).isSome || isNullV b then .ok .vnull
         else .error "unsupported operand types for +")
      else if isNullV b then
        (if (numQ a).isSome then .ok .vnull
         else .error "unsupported operand types for +")
      else .error "unsupported operand types for +"

/-- Python `*` on cell values as used by the `extend` product expression:
numbers multiply, an integer repeats a string, anything else raises. -/
def vmul : Value → Value → Except String Value
  | a, b =>
    match numQ a, numQ b with
    | some x, some y =>
      .ok (match intLike a, intLike b with
        | some n, some m => .vint (n * m)
        | _, _ => .vfloat (x * y))
    | _, _ =>
      match intLike a, b with
      | some n, .vstr s => .ok (.vstr (strRepeat s n.toNat))
      | _, _ =>
        match a, intLike b with
        | .vstr s, some n => .ok (.vstr (strRepeat s n.toNat))
        | _, _ =>
          if isNullV a then
            (if (numQ b).isSome || isNullV b then .ok .vnull
             else .error "unsupported operand types for *")
          else if isNullV b then
            (if (numQ a).isSome then .ok .vnull
             else .error "unsupported operand types for *")
          else .error "unsupported operand types for *"

mutual

/-- Python `==` on two values: numbers (booleans included) compare
numerically, `NaN` compares unequal to everything, lists compare
elementwise (`list.__eq__`), other kinds by structural equality, and
mismatched kinds are simply unequal — never an error. -/
def valueEqB (a b : Value) : Bool :=
  match a, b with
  | .vlist xs, .vlist ys => listEqB xs ys
  | _, _ =>
    match numQ a, numQ b with
    | some x, some y => x == y
    | _, _ => if isNullV a || isNullV b then false else a == b

/-- Python `list.__eq__`: equal lengths and pairwise `==` elements. -/
def listEqB : List Value → List Value → Bool
  | [], [] => true
  | x :: xs, y :: ys => valueEqB x y && listEqB xs ys
  | _, _ => false

end

mutual

/-- Python's ordered comparison of two values: `some` an `Ordering` when
the outcome is value-determined, `none` when `NaN` takes part against a
number (every ordered comparison is `False`), and an error for the
`TypeError` of a cross-kind comparison.  Lists compare as CPython does:
scan for the first non-`==` element pair and compare that pair, lengths
deciding when one list is a prefix of the other. -/
def pyCmpV : Value → Value → Except String (Option Ordering)
  | .vlist xs, .vlist ys => pyCmpL xs ys
  | a, b =>
    if isNullV a || isNullV b then
      (if ((numQ a).isSome || isNullV a) && ((numQ b).isSome || isNullV b)
       then .ok none
       else .error "TypeError: comparison not supported between instances")
    else
      match numQ a, numQ b with
      | some x, some y => .ok (some (cmpLin x y))
      | _, _ =>
        match a, b with
        | .vstr s, .vstr t => .ok (some (cmpList cmpLin s.data t.data))
        | _, _ => .error "TypeError: comparison not supported between instances"

/-- Python list comparison: first non-`==` pair decides, else lengths. -/
def pyCmpL : List Value → List Value → Except String (Option Ordering)
  | [], [] => .ok (some .eq)
  | [], _ :: _ => .ok (some .lt)
  | _ :: _, [] => .ok (some .gt)
  | x :: xs, y :: ys => if valueEqB x y then pyCmpL xs ys else pyCmpV x y

end

/-- Pandas elementwise ordered comparison of a cell against one
comparison operand: an undetermined (`NaN`-involving) comparison is
`False`, a determined one applies the operator's `Ordering` test, a
cross-kind comparison raises `TypeError`. -/
def vOrd (test : Ordering → Bool) (cell lit : Value) : Except String Bool :=
  match pyCmpV cell lit with
  | .error e => .error e
  | .ok none => .ok false
  | .ok (some o) => .ok (test o)

/-- `str.startswith` after `astype(str)`. -/
def vStarts (cell lit : Value) : Bool :=
  (pyStr lit).data.isPrefixOf (pyStr cell).data

/-- `str.endswith` after `astype(str)`. -/
def vEnds (cell lit : Value) : Bool :=
  (pyStr lit).data.reverse.isPrefixOf (pyStr cell).data.reverse

/-- Python `int(v)` as used by `take`, `sample` and `top`: ints pass,
floats truncate toward zero, numeric strings parse, anything else raises. -/
def pyToInt : Value → Except String Int
  | .vint n => .ok n
  | .vbool b => .ok (if b then 1 else 0)
  | .vfloat q => .ok (q.num.tdiv (q.den : Int))
  | .vstr s =>
    match pyParseInt (pyStrip s.data) with
    | some n => .ok n
    | none => .error ("invalid literal for int: " ++ s)
  | .vnull => .error "cannot convert float NaN to integer"
  | .vlist _ => .error "int argument must be a string or a number, not list"

/-- Python `df.head(n)`: a prefix for `n ≥ 0`, all but the last `-n` rows
for negative `n`. -/
def pyHead (n : Int) (rows : List (List Value)) : List (List Value) :=
  if 0 ≤ n then rows.take n.toNat
  else rows.take (rows.length - (-n).toNat)

/-- First-occurrence deduplication by a key (`drop_duplicates`); `seen`
accumulates the keys already emitted. -/
def dedupBy (key : α → β) [BEq β] : List α → List β → List α
  | [], _ => []
  | x :: xs, seen =>
    if seen.any (fun k => k == key x) then dedupBy key xs seen
    else x :: dedupBy key xs (key x :: seen)

/-- Effectful left fold, stopping at the first error. -/
def foldE (f : β → α → Except String β) (init : β) : List α → Except String β
  | [] => .ok init
  | x :: xs =>
    match f init x with
    | .error e => .error e
    | .ok y => foldE f y xs

/-- Python type name for attribute-error messages. -/
def pyTypeName : Value → String
  | .vnull => "NoneType"
  | .vbool _ => "bool"
  | .vint _ => "int"
  | .vfloat _ => "float"
  | .vstr _ => "str"
  | .vlist _ => "list"

/-! ### `where` stage (`KQLEngine._where`) -/

/-- The comparison operator of one sub-condition. -/
inductive POp where
  | peq | pne | pge | ple | pgt | plt | pcontains | pstarts | pends
deriving DecidableEq

/-- One parsed sub-condition: column, operator, parsed literal. -/
structure Pred where
  col : String
  op : POp
  lit : Value

/-- Classifies one sub-condition exactly as the source branch chain does:
bare `=` (when none of `!=`, `>=`, `<=` occur), then `!=`, `>=`, `<=`,
`>`, `<`, `contains`, `startswith`, `endswith`; an unclassifiable
sub-condition is silently skipped by the source, hence `none`. -/
def parsePred (c : String) : Option Pred :=
  let l := c.data
  let mk : List Char × List Char → POp → Pred := fun p o =>
    ⟨strip ⟨p.1⟩, o, parseValue (strip ⟨p.2⟩)⟩
  if hasPat ['='] l && !(hasPat ['!', '='] l) && !(hasPat ['>', '='] l)
      && !(hasPat ['<', '='] l) then
    (splitFirst ['='] l).map (fun p => mk p .peq)
  else if hasPat ['!', '='] l then
    (splitFirst ['!', '='] l).map (fun p => mk p .pne)
  else if hasPat ['>', '='] l then
    (splitFirst ['>', '='] l).map (fun p => mk p .pge)
  else if hasPat ['<', '='] l then
    (splitFirst ['<', '='] l).map (fun p => mk p .ple)
  else if hasPat ['>'] l then
    (splitFirst ['>'] l).map (fun p => mk p .pgt)
  else if hasPat ['<'] l then
    (splitFirst ['<'] l).map (fun p => mk p .plt)
  else if hasPat (("contains").data) l then
    (splitFirst (("contains").data) l).map (fun p => mk p .pcontains)
  else if hasPat (("startswith").data) l then
    (splitFirst (("startswith").data) l).map (fun p => mk p .pstarts)
  else if hasPat (("endswith").data) l then
    (splitFirst (("endswith").data) l).map (fun p => mk p .pends)
  else none

/-- The regular-expression oracle for `str.contains`: the source compiles
the literal with `re.IGNORECASE` (`case=False`), so the oracle maps a
pattern to either a compile error (`re.error`) or a total match predicate
(`re.search`, which does not raise once compiled). -/
abbrev ReSearch := String → Except String (String → Bool)

/-- The operators whose pandas comparison aligns a list operand with the
rows elementwise (`Series.__eq__` and friends); the three string methods
instead receive `str(val)`, a scalar. -/
def listComparable : POp → Bool
  | .peq => true
  | .pne => true
  | .pge => true
  | .ple => true
  | .pgt => true
  | .plt => true
  | _ => false

/-- A sub-condition whose mask is a row-by-row test: every condition
except a comparison operator applied to a parenthesised list literal
(which pandas aligns with the rows positionally). -/
def rowLocalP (p : Pred) : Bool :=
  match p.lit with
  | .vlist _ => !(listComparable p.op)
  | _ => true

/-- The element list of an aligned literal. -/
def litList : Value → List Value
  | .vlist xs => xs
  | v => [v]

/-- Evaluates one operator on one cell against one comparison operand. -/
def testPred (matcher : ReSearch) (op : POp) (cell lit : Value) :
    Except String Bool :=
  match op with
  | .peq => .ok (valueEqB cell lit)
  | .pne => .ok (!(valueEqB cell lit))
  | .pge => vOrd (fun o => o != .lt) cell lit
  | .ple => vOrd (fun o => o != .gt) cell lit
  | .pgt => vOrd (fun o => o == .gt) cell lit
  | .plt => vOrd (fun o => o == .lt) cell lit
  | .pcontains =>
    (match matcher (pyStr lit) with
     | .error e => .error e
     | .ok f => .ok (f (pyStr cell)))
  | .pstarts => .ok (vStarts cell lit)
  | .pends => .ok (vEnds cell lit)

/-- Evaluates one parsed sub-condition on one row (column lookup included;
a missing column is the `KeyError` raised by `df[col]`). -/
def evalPred (matcher : ReSearch) (cols : List String) (p : Pred)
    (r : List Value) : Except String Bool :=
  if hasCol cols p.col then testPred matcher p.op (cellAt cols p.col r) p.lit
  else .error ("KeyError: " ++ p.col)

/-- The sub-condition texts: rewrite `==` to `=` once, split on the
substring `and`, strip each part. -/
def whereConds (s : String) : List String :=
  (splitOnAnd (replaceEq s.data)).map (fun l => strip ⟨l⟩)

/-- The boolean mask of one classified sub-condition over the whole
column, as the source's vectorised comparison builds it: a row-local
condition tests each row (with the `contains` pattern compiled once, so an
invalid pattern fails even on an empty table); a comparison against a list
literal aligns it with the rows — equal lengths compare elementwise,
unequal lengths raise pandas' length-mismatch `ValueError`. -/
def predMask (matcher : ReSearch) (cols : List String)
    (rows : List (List Value)) (p : Pred) : Except String (List Bool) :=
  if rowLocalP p then
    (if p.op = .pcontains then
      match matcher (pyStr p.lit) with
      | .error e => .error e
      | .ok f => .ok (rows.map (fun r => f (pyStr (cellAt cols p.col r))))
    else mapE (fun r => testPred matcher p.op (cellAt cols p.col r) p.lit) rows)
  else
    (if (litList p.lit).length == rows.length then
      mapE (fun cv => testPred matcher p.op cv.1 cv.2)
        ((rows.map (fun r => cellAt cols p.col r)).zip (litList p.lit))
    else .error "Lengths must match to compare")

/-- The mask-building loop of `_where`: one boolean column per classified
sub-condition, combined by `&=`; a missing column, a comparison type
error, an invalid `contains` pattern or a list-literal length mismatch
aborts the stage. -/
def whereRun (matcher : ReSearch) (cols : List String)
    (rows : List (List Value)) :
    List String → List Bool → Except String (List Bool)
  | [], mask => .ok mask
  | c :: cs, mask =>
    match parsePred c with
    | none => whereRun matcher cols rows cs mask
    | some p =>
      if hasCol cols p.col then
        match predMask matcher cols rows p with
        | .error e => .error e
        | .ok ts => whereRun matcher cols rows cs (mask.zipWith (· && ·) ts)
      else .error ("KeyError: " ++ p.col)

/-- Runs the condition of a `where` stage on the table: build the mask,
filter positionally. -/
def whereFilter (matcher : ReSearch) (df : DataFrame) (s : String) :
    Except String DataFrame :=
  match whereRun matcher df.cols df.rows (whereConds s)
      (df.rows.map (fun _ => true)) with
  | .error e => .error e
  | .ok mask => .ok ⟨df.cols, filterByMask df.rows mask⟩

/-- `KQLEngine._where`: no positional argument, or a non-string one, is a
no-op; otherwise filter by the conjunction of the sub-conditions. -/
def whereOp (matcher : ReSearch) (df : DataFrame) (args : List Value)
    (_kw : List (String × Value)) : Except String DataFrame :=
  match args with
  | [] => .ok df
  | cond :: _ =>
    match cond with
    | .vstr s => whereFilter matcher df s
    | _ => .ok df

/-! ### `summarize` stage (`KQLEngine._summarize`) -/

/-- Aggregation functions supported by the source's dispatch (`count` maps
to the pandas `size` aggregation, `dcount` to `nunique`). -/
inductive AggFn where
  | asize | asum | amean | amin | amax | astd | amedian | anunique
deriving DecidableEq

/-- One `result=func(source)` aggregation spec. -/
structure AggSpec where
  outName : String
  srcCol : String
  fn : AggFn
deriving DecidableEq

/-- `agg_dict` insertion: an existing result name keeps its position and
takes the new spec (Python `dict` assignment). -/
def upsertAgg : List AggSpec → AggSpec → List AggSpec
  | [], a => [a]
  | a0 :: rest, a =>
    if a0.outName == a.outName then a :: rest else a0 :: upsertAgg rest a

/-- The function-name dispatch of `_summarize`; unknown names are silently
dropped by the source. -/
def aggFnOf (name : String) : Option AggFn :=
  if name == "count" then some .asize
  else if name == "sum" then some .asum
  else if name == "mean" then some .amean
  else if name == "min" then some .amin
  else if name == "max" then some .amax
  else if name == "std" then some .astd
  else if name == "median" then some .amedian
  else if name == "dcount" then some .anunique
  else none

/-- Parses the single positional argument of `summarize`: split on commas,
a piece with `=` is an aggregation spec `result=func(source)` (kept only
when it has both parens and a known function name; the source column is
`split('(')[1].split(')')[0]`, i.e. the text after the first opening paren
truncated at the next opening or closing paren), a piece without `=` is a
group-by column name. -/
def parseSummarize (s : String) : List AggSpec × List String :=
  (splitChar ',' s.data).foldl
    (fun acc piece =>
      let e := strip ⟨piece⟩
      if hasPat ['='] e.data then
        match splitFirst ['='] e.data with
        | some (rc, fe) =>
          if hasPat ['('] fe && hasPat [')'] fe then
            match splitFirst ['('] fe with
            | some (fnPart, rest) =>
              let seg := match splitFirst ['('] rest with
                         | some q => q.1
                         | none => rest
              let src := strip ⟨(match splitFirst [')'] seg with
                                 | some p => p.1
                                 | none => seg)⟩
              (match aggFnOf (strip ⟨fnPart⟩) with
               | some f => (upsertAgg acc.1 ⟨strip ⟨rc⟩, src, f⟩, acc.2)
               | none => acc)
            | none => acc
          else acc
        | none => acc
      else (acc.1, acc.2 ++ [e]))
    ([], [])

/-- String-only test (object dtype column of strings). -/
def vstrOnly : Value → Bool
  | .vstr _ => true
  | _ => false

/-- One pandas aggregation over the cells of a group.  `std` is modelled
as the sample variance (`ddof=1`): pandas returns its square root as a
float64, which has no exact rational representative; no claim depends on
the numeric value of `std`. -/
def evalAgg (f : AggFn) (cells : List Value) : Except String Value :=
  let nn := cells.filter (fun v => !(isNullV v))
  match f with
  | .asize => .ok (.vint cells.length)
  | .anunique => .ok (.vint ((dedupBy id nn []).length))
  | .asum =>
    if nn.isEmpty then .ok (.vfloat 0)
    else if nn.all (fun v => (intLike v).isSome) then
      .ok (.vint ((nn.map (fun v => (intLike v).getD 0)).sum))
    else if nn.all (fun v => (numQ v).isSome) then
      .ok (.vfloat ((nn.map encQ).sum))
    else if nn.all vstrOnly then
      .ok (.vstr ((nn.map pyStr).foldl (fun a s => a ++ s) ""))
    else .error "unsupported operand types for sum"
  | .amean =>
    if nn.isEmpty then .ok .vnull
    else if nn.all (fun v => (numQ v).isSome) then
      .ok (.vfloat ((nn.map encQ).sum / (nn.length : ℚ)))
    else .error "could not convert value to numeric"
  | .amin =>
    (match nn with
     | [] => .ok .vnull
     | x :: xs =>
       if nn.all (fun v => (intLike v).isSome) then
         .ok (.vint (xs.foldl (fun a v => min a ((intLike v).getD 0))
           ((intLike x).getD 0)))
       else if nn.all (fun v => (numQ v).isSome) then
         .ok (.vfloat (xs.foldl (fun a v => min a (encQ v)) (encQ x)))
       else if nn.all vstrOnly then
         .ok (.vstr (xs.foldl
           (fun a v => if cmpList cmpLin (pyStr v).data a.data == .lt
             then pyStr v else a) (pyStr x)))
       else .error "comparison not supported between instances")
  | .amax =>
    (match nn with
     | [] => .ok .vnull
     | x :: xs =>
       if nn.all (fun v => (intLike v).isSome) then
         .ok (.vint (xs.foldl (fun a v => max a ((intLike v).getD 0))
           ((intLike x).getD 0)))
       else if nn.all (fun v => (numQ v).isSome) then
         .ok (.vfloat (xs.foldl (fun a v => max a (encQ v)) (encQ x)))
       else if nn.all vstrOnly then
         .ok (.vstr (xs.foldl
           (fun a v => if cmpList cmpLin (pyStr v).data a.data == .gt
             then pyStr v else a) (pyStr x)))
       else .error "comparison not supported between instances")
  | .astd =>
    if nn.all (fun v => (numQ v).isSome) then
      (if nn.length < 2 then .ok .vnull
       else
         let qs := nn.map encQ
         let m := qs.sum / (qs.length : ℚ)
         .ok (.vfloat ((qs.map (fun q => (q - m) * (q - m))).sum
           / ((qs.length : ℚ) - 1))))
    else .error "could not convert value to numeric"
  | .amedian =>
    if nn.isEmpty then .ok .vnull
    else if nn.all (fun v => (numQ v).isSome) then
      let qs := insSort (fun a b : ℚ => decide (a ≤ b)) (nn.map encQ)
      let n := qs.length
      (if n % 2 == 1 then .ok (.vfloat (qs.getD (n / 2) 0))
       else .ok (.vfloat ((qs.getD (n / 2 - 1) 0 + qs.getD (n / 2) 0) / 2)))
    else .error "could not convert value to numeric"

/-- The distinct non-null group keys, in ascending key order (`groupby`
with its default `sort=True` and `dropna=True`: a row whose key tuple has
any null takes part in no group). -/
def groupKeys (cols : List String) (rows : List (List Value))
    (gb : List String) : List (List Value) :=
  insSort (cmpLe (cmpRow true))
    (dedupBy id
      ((rows.map (fun r => keyCells cols gb r)).filter
        (fun k => !(k.any isNullV))) [])

/-- The rows contributing to one group key. -/
def groupRows (cols : List String) (rows : List (List Value))
    (gb : List String) (k : List Value) : List (List Value) :=
  rows.filter (fun r => keyCells cols gb r == k)

/-- `df.groupby(group_by).agg(**agg_dict).reset_index()`: group-by columns
first, one output row per distinct non-null key, aggregates computed per
group. -/
def applyGroupby (cols : List String) (rows : List (List Value))
    (aggs : List AggSpec) (gb : List String) : Except String DataFrame :=
  match gb.find? (fun g => !(hasCol cols g)) with
  | some g => .error ("KeyError: " ++ g)
  | none =>
    if aggs.isEmpty then .error "Must provide a function or named aggregation"
    else
      if !((aggs.map AggSpec.srcCol).filter
          (fun c => !(hasCol cols c))).isEmpty then
        .error ("Column(s) [" ++ String.intercalate (", ")
          ((aggs.map AggSpec.srcCol).filter (fun c => !(hasCol cols c)))
          ++ "] do not exist")
      else
        match mapE (fun k =>
          (mapE (fun a => evalAgg a.fn
            ((groupRows cols rows gb k).map (fun r => cellAt cols a.srcCol r)))
            aggs).map (fun vals => k ++ vals)) (groupKeys cols rows gb) with
        | .error e => .error e
        | .ok newRows => .ok ⟨gb ++ aggs.map AggSpec.outName, newRows⟩

/-- The pandas aggregation-string spelling of each modelled aggregation
(`Series.agg` names: `count` was dispatched to `size`, `dcount` to
`nunique`). -/
def aggFnName : AggFn → String
  | .asize => "size"
  | .asum => "sum"
  | .amean => "mean"
  | .amin => "min"
  | .amax => "max"
  | .astd => "std"
  | .amedian => "median"
  | .anunique => "nunique"

/-- The aggregation a string names when handed to `Series.agg`; `none`
for a string naming no modelled aggregation (`Series.agg` then raises
while resolving the attribute — other resolvable `Series` method names,
such as `var` or `prod`, are outside the modelled vocabulary). -/
def seriesAggOf (s : String) : Option AggFn :=
  if s == "size" then some .asize
  else if s == "sum" then some .asum
  else if s == "mean" then some .amean
  else if s == "min" then some .amin
  else if s == "max" then some .amax
  else if s == "std" then some .astd
  else if s == "median" then some .amedian
  else if s == "nunique" then some .anunique
  else none

/-- The cells of one column. -/
def colCellsAt (cols : List String) (rows : List (List Value))
    (c : String) : List Value :=
  rows.map (fun r => cellAt cols c r)

/-- `df.agg(agg_dict).reset_index()`, as the source calls it with a dict
whose keys are the *result* names and whose values are `NamedAgg` tuples:
pandas first rejects keys that are not existing columns (`KeyError`
listing every missing key); otherwise each key's tuple is applied as a
pair of aggregation-function names over the *key's* column — the
`column=` field first, then the `aggfunc=` field, so the stage only
proceeds when the user's source-column text itself names an aggregation
(a duplicate of the two names is pandas' `SpecificationError`).  The
result is one row per distinct function name in order of first
appearance, `reset_index` putting the names in a leading `index` column,
with cells null where a column did not request that function. -/
def applyDfAgg (cols : List String) (rows : List (List Value))
    (aggs : List AggSpec) : Except String DataFrame :=
  match aggs with
  | [] => .error "No objects to concatenate"
  | _ :: _ =>
    if !((aggs.map AggSpec.outName).filter
        (fun c => !(hasCol cols c))).isEmpty then
      .error ("Column(s) [" ++ String.intercalate (", ")
        ((aggs.map AggSpec.outName).filter (fun c => !(hasCol cols c)))
        ++ "] do not exist")
    else
      match mapE (fun a =>
        if a.srcCol == aggFnName a.fn then
          (.error "Function names must be unique" :
            Except String (Value × Value))
        else
          match seriesAggOf a.srcCol with
          | none => .error (a.srcCol ++ " is not a valid function for Series object")
          | some f =>
            match evalAgg f (colCellsAt cols rows a.outName),
                evalAgg a.fn (colCellsAt cols rows a.outName) with
            | .ok u, .ok w => .ok (u, w)
            | .error e, _ => .error e
            | _, .error e => .error e) aggs with
      | .error e => .error e
      | .ok pairs =>
        .ok ⟨("index") :: aggs.map AggSpec.outName,
          (dedupBy id (aggs.foldr
              (fun a acc => a.srcCol :: aggFnName a.fn :: acc) []) []).map
            (fun f => .vstr f :: (aggs.zip pairs).map (fun ap =>
              if f == ap.1.srcCol then ap.2.1
              else if f == aggFnName ap.1.fn then ap.2.2
              else .vnull))⟩

/-- The numeric-dtype column selection oracle
(`select_dtypes(include=[np.number]).columns`): dtypes are a frame
property the value-level table does not carry, so the selection is an
explicit argument; pandas keeps it invariant under row filtering. -/
abbrev NumSelect := List String → List (List Value) → List String

/-- The aggregation dict `_summarize` builds: the parsed specs, or — when
none survived parsing — the mean of every numeric-dtype column of the
input frame. -/
def aggsOf (sel : NumSelect) (df : DataFrame) (s : String) : List AggSpec :=
  if (parseSummarize s).1.isEmpty then
    (sel df.cols df.rows).map (fun c => ⟨c, c, .amean⟩)
  else (parseSummarize s).1

/-- `KQLEngine._summarize`: no positional argument is a no-op; a
non-string one raises (`.split` on a non-string); otherwise parse the
expression list, default to the mean of every numeric-dtype column when no
aggregation spec was kept, and group or whole-frame aggregate. -/
def summarizeOp (sel : NumSelect) (df : DataFrame) (args : List Value)
    (_kw : List (String × Value)) : Except String DataFrame :=
  match args with
  | [] => .ok df
  | arg :: _ =>
    match arg with
    | .vstr s =>
      if (parseSummarize s).2.isEmpty then
        applyDfAgg df.cols df.rows (aggsOf sel df s)
      else applyGroupby df.cols df.rows (aggsOf sel df s) (parseSummarize s).2
    | v => .error (pyTypeName v ++ " object has no attribute split")

/-! ### Remaining stages -/

/-- Flattens list-valued arguments (the source extends `columns` with
`arg` when `isinstance(arg, list)`). -/
def flattenArgs (args : List Value) : List Value :=
  args.foldr (fun a acc =>
    (match a with
     | .vlist l => l
     | v => [v]) ++ acc) []

/-- `KQLEngine._project`: keep the existing requested columns in the
requested order; when none of them exists, return the table unchanged. -/
def projectOp (df : DataFrame) (args : List Value)
    (_kw : List (String × Value)) : Except String DataFrame :=
  match args with
  | [] => .ok df
  | _ =>
    let existing := (flattenArgs args).filterMap (fun v =>
      match v with
      | .vstr s => if hasCol df.cols s then some s else none
      | _ => none)
    if existing.isEmpty then .ok df
    else .ok ⟨existing,
      df.rows.map (fun r => existing.map (fun c => cellAt df.cols c r))⟩

/-- Evaluates one `extend` expression against the *input* table (the
source always reads `df`, not the partially extended result): `tolower(`
and `toupper(` forms take `expression[8:-1]` as the column; otherwise a
`+` form sums the listed columns that exist (the empty sum is the integer
scalar `0`, broadcast); otherwise a `*` form multiplies them with identity
`1`; any other shape, a missing case-fold column, or an arithmetic
`TypeError` yields `none` — the caught-and-ignored exception. -/
def extendEval (df : DataFrame) (expr : String) : Option (List Value) :=
  if (("tolower(").data).isPrefixOf expr.data then
    match getColumn df ⟨(expr.data.drop 8).dropLast⟩ with
    | some cells => some (cells.map (fun v => .vstr (lowerS (pyStr v))))
    | none => none
  else if (("toupper(").data).isPrefixOf expr.data then
    match getColumn df ⟨(expr.data.drop 8).dropLast⟩ with
    | some cells => some (cells.map (fun v => .vstr (upperS (pyStr v))))
    | none => none
  else if hasPat ['+'] expr.data then
    let parts := (splitChar '+' expr.data).map (fun p => strip ⟨p⟩)
    let present := parts.filter (fun p => hasCol df.cols p)
    if present.isEmpty then some (df.rows.map (fun _ => .vint 0))
    else (mapE (fun r => foldE
      (fun acc c => vadd acc (cellAt df.cols c r)) (.vint 0) present)
      df.rows).toOption
  else if hasPat ['*'] expr.data then
    let parts := (splitChar '*' expr.data).map (fun p => strip ⟨p⟩)
    let present := parts.filter (fun p => hasCol df.cols p)
    if present.isEmpty then some (df.rows.map (fun _ => .vint 1))
    else (mapE (fun r => foldE
      (fun acc c => vmul acc (cellAt df.cols c r)) (.vint 1) present)
      df.rows).toOption
  else none

/-- One iteration of the `_extend` loop: a string argument containing `=`
is split at its first `=` into target column and expression; a successful
evaluation assigns the column, a failed one changes nothing. -/
def extendStep (df acc : DataFrame) (a : Value) : DataFrame :=
  match a with
  | .vstr s =>
    if hasPat ['='] s.data then
      match splitFirst ['='] s.data with
      | some (n, e) =>
        (match extendEval df (strip ⟨e⟩) with
         | some vals => setColumn acc (strip ⟨n⟩) vals
         | none => acc)
      | none => acc
    else acc
  | _ => acc

/-- `KQLEngine._extend`: fold the `name=expression` arguments over a copy
of the input; a failing expression adds nothing (fail-silent), all reads
come from the original table. -/
def extendOp (df : DataFrame) (args : List Value)
    (_kw : List (String × Value)) : DataFrame :=
  args.foldl (extendStep df) df

/-- A value-determined ordered comparison: Python `<` between the two
values neither raises `TypeError` nor involves `NaN` (whose comparisons
are all `False`, leaving the sorted position to the sort's internal
comparison sequence rather than to the data). -/
def decisiveCmp (a b : Value) : Bool :=
  match pyCmpV a b with
  | .ok (some _) => true
  | _ => false

/-- Sortability of one column: pandas raises `TypeError` when an object
column mixes comparison classes (numbers with strings, scalars with
lists); nulls are allowed and pulled last by `nargsort`.  A column of
lists sorts by Python's list order; the model requires every pair of its
non-null cells to compare decisively, since an undetermined pair (a
cross-kind element pair, or `NaN` deciding a comparison) makes the
outcome depend on the sort's internal comparison sequence. -/
def sortableCol (df : DataFrame) (c : String) : Bool :=
  match getColumn df c with
  | some cells =>
    cells.all (fun v => isNullV v || (numQ v).isSome) ||
    cells.all (fun v => isNullV v || vstrOnly v) ||
    (cells.all (fun v => isNullV v ||
        (match v with | .vlist _ => true | _ => false)) &&
      (cells.filter (fun v => !(isNullV v))).all (fun a =>
        (cells.filter (fun v => !(isNullV v))).all (fun b => decisiveCmp a b)))
  | none => false

/-- The sort key of a row over the listed columns. -/
def sortKey (cols colNames : List String) (r : List Value) : List Value :=
  colNames.map (fun c => cellAt cols c r)

/-- Row comparison for `sort_values` over the listed columns. -/
def sortLe (asc : Bool) (cols colNames : List String)
    (r s : List Value) : Bool :=
  cmpLe (cmpRow asc) (sortKey cols colNames r) (sortKey cols colNames s)

/-- The `ascending` flag computation of `_sort`:
`kwargs.get('order', 'asc').lower() != 'desc'`; a non-string `order`
raises `AttributeError` at `.lower()`. -/
def ascExcept (kw : List (String × Value)) : Except String Bool :=
  match lookupKw kw ("order") with
  | none => .ok true
  | some (.vstr o) => .ok (lowerS o != "desc")
  | some v => .error (pyTypeName v ++ " object has no attribute lower")

/-- The `ascending` flag when the stage does not raise. -/
def ascOf (kw : List (String × Value)) : Bool :=
  match lookupKw kw ("order") with
  | some (.vstr o) => lowerS o != "desc"
  | _ => true

/-- The string column names among the flattened sort arguments. -/
def sortColsOf (args : List Value) : List String :=
  (flattenArgs args).filterMap (fun v =>
    match v with
    | .vstr s => some s
    | _ => none)

/-- `df.sort_values(by=columns, ascending=asc)`: a missing column raises
`KeyError`, a column mixing comparison classes raises `TypeError`, and
otherwise the rows are sorted lexicographically by the listed columns.
The model realises the stable order; pandas guarantees it only for the
multi-column path (`np.lexsort`, stable) — a single column defaults to
`kind=quicksort`, whose order on equal keys is unspecified, so the sort
theorems assert stability only for two or more columns. -/
def sortValues (df : DataFrame) (asc : Bool) (columns : List Value) :
    Except String DataFrame :=
  match columns.find? (fun v =>
    match v with
    | .vstr s => !(hasCol df.cols s)
    | _ => true) with
  | some bad => .error ("KeyError: " ++ pyStr bad)
  | none =>
    if (columns.filterMap (fun v =>
        match v with
        | .vstr s => some s
        | _ => none)).all (fun c => sortableCol df c) then
      .ok ⟨df.cols, insSort (sortLe asc df.cols (columns.filterMap (fun v =>
        match v with
        | .vstr s => some s
        | _ => none))) df.rows⟩
    else .error "TypeError: comparison not supported between instances"

/-- `KQLEngine._sort`: no arguments is `sort_index` (the identity in this
unindexed model); otherwise a stable lexicographic `sort_values` over the
listed columns, ascending unless the named argument `order` is `desc`
(case-insensitively). -/
def sortOp (df : DataFrame) (args : List Value)
    (kw : List (String × Value)) : Except String DataFrame :=
  match args with
  | [] => .ok df
  | _ =>
    match ascExcept kw with
    | .error e => .error e
    | .ok asc => sortValues df asc (flattenArgs args)

/-- `KQLEngine._take`: `df.head(int(args[0]))`; no arguments is the
identity. -/
def takeOp (df : DataFrame) (args : List Value)
    (_kw : List (String × Value)) : Except String DataFrame :=
  match args with
  | [] => .ok df
  | a :: _ =>
    match pyToInt a with
    | .error e => .error e
    | .ok n => .ok ⟨df.cols, pyHead n df.rows⟩

/-- `KQLEngine._count`: single-cell table with the row count. -/
def countOp (df : DataFrame) (_args : List Value)
    (_kw : List (String × Value)) : Except String DataFrame :=
  .ok ⟨["count"], [[.vint df.rows.length]]⟩

/-- `KQLEngine._distinct`: `drop_duplicates`, optionally on a column
subset; first occurrences are kept in order; a missing subset column
raises `KeyError`. -/
def distinctOp (df : DataFrame) (args : List Value)
    (_kw : List (String × Value)) : Except String DataFrame :=
  match args with
  | [] => .ok ⟨df.cols, dedupBy id df.rows []⟩
  | _ =>
    let columns := flattenArgs args
    match columns.find? (fun v =>
      match v with
      | .vstr s => !(hasCol df.cols s)
      | _ => true) with
    | some bad => .error ("KeyError: " ++ pyStr bad)
    | none =>
      let names := columns.filterMap (fun v =>
        match v with
        | .vstr s => some s
        | _ => none)
      .ok ⟨df.cols, dedupBy (fun r => keyCells df.cols names r) df.rows []⟩

/-- The random draw of `df.sample`, abstracted: given the requested count
and the row count it yields the chosen row positions. -/
abbrev Sampler := Nat → Nat → List Nat

/-- Selects the sampled rows from the drawn positions. -/
def pickRows (sampler : Sampler) (n : Nat) (rows : List (List Value)) :
    List (List Value) :=
  ((sampler n rows.length).take n).filterMap (fun i => rows.get? i)

/-- `KQLEngine._sample`: `min(n, len)` random rows, or 10% of the rows
with no argument; a negative `n` raises. -/
def sampleOp (sampler : Sampler) (df : DataFrame) (args : List Value)
    (_kw : List (String × Value)) : Except String DataFrame :=
  match args with
  | [] => .ok ⟨df.cols, pickRows sampler ((df.rows.length + 5) / 10) df.rows⟩
  | a :: _ =>
    match pyToInt a with
    | .error e => .error e
    | .ok n =>
      if n < 0 then .error "A negative number of rows requested"
      else .ok ⟨df.cols, pickRows sampler (min n.toNat df.rows.length) df.rows⟩

/-- Numeric-dtype test for `nlargest`/`nsmallest` (which reject both
object and boolean columns). -/
def numericOnlyCol (df : DataFrame) (c : String) : Bool :=
  match getColumn df c with
  | some cells => cells.all (fun v => isNullV v || isIntFloatV v)
  | none => false

/-- `KQLEngine._top`: with `n` and an existing column, `nlargest` (named
argument `by` defaulting to `desc`) or `nsmallest` (`by=asc`): nulls are
excluded, ties keep the first occurrences; any other shape falls back to
the first 10 rows. -/
def topOp (df : DataFrame) (args : List Value)
    (kw : List (String × Value)) : Except String DataFrame :=
  match args with
  | a :: b :: _ =>
    (match pyToInt a with
     | .error e => .error e
     | .ok n =>
       match ((match lookupKw kw ("by") with
               | none => .ok ("desc")
               | some (.vstr s) => .ok s
               | some v => .error (pyTypeName v ++ " object has no attribute lower"))
              : Except String String) with
       | .error e => .error e
       | .ok byArg =>
         match b with
         | .vstr c =>
           if hasCol df.cols c then
             (if numericOnlyCol df c then
               let asc := lowerS byArg != "desc"
               let nonNullRows := df.rows.filter
                 (fun r => !(isNullV (cellAt df.cols c r)))
               .ok ⟨df.cols, (insSort (sortLe asc df.cols [c]) nonNullRows).take
                 (if 0 ≤ n then n.toNat else 0)⟩
             else .error ("Column " ++ c ++ " has unsupported dtype"))
           else .ok ⟨df.cols, df.rows.take 10⟩
         | _ => .ok ⟨df.cols, df.rows.take 10⟩)
  | _ => .ok ⟨df.cols, df.rows.take 10⟩

/-- `KQLEngine._make_list`: collapse the whole table to one row holding
the column's values as a list; a missing or non-string column is a no-op. -/
def makeListOp (df : DataFrame) (args : List Value)
    (_kw : List (String × Value)) : Except String DataFrame :=
  match args with
  | (.vstr c) :: _ =>
    if hasCol df.cols c then
      .ok ⟨[c ++ "_list"], [[.vlist ((getColumn df c).getD [])]]⟩
    else .ok df
  | _ => .ok df

/-- `KQLEngine._mv_expand`: when any cell of the column is a list, explode
each list cell to one row per element (an empty list becomes a null row),
pass scalar cells through; otherwise a no-op. -/
def mvExpandOp (df : DataFrame) (args : List Value)
    (_kw : List (String × Value)) : Except String DataFrame :=
  match args with
  | (.vstr c) :: _ =>
    (match colIdx df.cols c with
     | some i =>
       if df.rows.any (fun r =>
           match r.getD i .vnull with
           | .vlist _ => true
           | _ => false) then
         .ok ⟨df.cols, df.rows.foldr (fun r acc =>
           (match r.getD i .vnull with
            | .vlist [] => [r.set i .vnull]
            | .vlist xs => xs.map (fun x => r.set i x)
            | _ => [r]) ++ acc) []⟩
       else .ok df
     | none => .ok df)
  | _ => .ok df

/-- `KQLEngine._join` stub: identity. -/
def joinOp (df : DataFrame) (_args : List Value)
    (_kw : List (String × Value)) : Except String DataFrame := .ok df

/-- `KQLEngine._union` stub: identity. -/
def unionOp (df : DataFrame) (_args : List Value)
    (_kw : List (String × Value)) : Except String DataFrame := .ok df

/-! ### Pipeline executor (`KQLEngine.execute_query`) -/

/-- Membership in the stage registry built by the engine constructor. -/
def knownStage (fn : String) : Bool :=
  fn == "where" || fn == "summarize" || fn == "project" || fn == "extend" ||
  fn == "sort" || fn == "take" || fn == "count" || fn == "distinct" ||
  fn == "join" || fn == "union" || fn == "sample" || fn == "top" ||
  fn == "make_list" || fn == "mv_expand"

/-- Dispatch to the stage operator of a known keyword. -/
def runStage (sampler : Sampler) (matcher : ReSearch) (sel : NumSelect)
    (fn : String) (df : DataFrame)
    (args : List Value) (kw : List (String × Value)) :
    Except String DataFrame :=
  if fn == "where" then whereOp matcher df args kw
  else if fn == "summarize" then summarizeOp sel df args kw
  else if fn == "project" then projectOp df args kw
  else if fn == "extend" then .ok (extendOp df args kw)
  else if fn == "sort" then sortOp df args kw
  else if fn == "take" then takeOp df args kw
  else if fn == "count" then countOp df args kw
  else if fn == "distinct" then distinctOp df args kw
  else if fn == "sample" then sampleOp sampler df args kw
  else if fn == "top" then topOp df args kw
  else if fn == "make_list" then makeListOp df args kw
  else if fn == "mv_expand" then mvExpandOp df args kw
  else if fn == "join" then joinOp df args kw
  else unionOp df args kw

/-- One executor step: unknown keywords raise `Unknown function: <name>`;
a named argument called `df` collides with the positional table parameter
of every stage method and raises a `TypeError` at the call. -/
def execOp (sampler : Sampler) (matcher : ReSearch) (sel : NumSelect)
    (df : DataFrame) (op : Op) : Except String DataFrame :=
  if knownStage op.fn then
    (if op.kwargs.any (fun kv => kv.1 == "df") then
      .error "got multiple values for argument df"
    else runStage sampler matcher sel op.fn df op.args op.kwargs)
  else .error ("Unknown function: " ++ op.fn)

/-- Threads the table through the parsed stages, stopping at the first
error. -/
def runOps (sampler : Sampler) (matcher : ReSearch) (sel : NumSelect) :
    List Op → DataFrame → Except String DataFrame
  | [], df => .ok df
  | op :: rest, df =>
    match execOp sampler matcher sel df op with
    | .error e => .error e
    | .ok df2 => runOps sampler matcher sel rest df2

/-- The engine state built by `KQLEngine.__init__`: the held table (a
private copy of the constructor argument) and the table name. -/
structure Engine where
  df : DataFrame
  table_name : String

/-- `KQLEngine.execute_query`: parse, run the stages on a copy of the held
table, wrap any failure in the uniform `Query execution error:` message.
The engine state is returned explicitly to make the frame effect of the
call a provable statement: the source never assigns `self.df`. -/
def execute_query (sampler : Sampler) (matcher : ReSearch)
    (sel : NumSelect) (e : Engine) (q : String) :
    Except String DataFrame × Engine :=
  ((match runOps sampler matcher sel (parseQuery q) e.df with
    | .ok r => .ok r
    | .error m => .error ("Query execution error: " ++ m)), e)

/-! ### Executor lemmas -/

/-- Sequencing of executor results. -/
def exceptBind (e : Except String DataFrame)
    (f : DataFrame → Except String DataFrame) : Except String DataFrame :=
  match e with
  | .ok a => f a
  | .error m => .error m

theorem runOps_append (sampler : Sampler) (matcher : ReSearch)
    (sel : NumSelect) :
    ∀ (as_ bs : List Op) (df : DataFrame),
    runOps sampler matcher sel (as_ ++ bs) df =
      exceptBind (runOps sampler matcher sel as_ df)
        (runOps sampler matcher sel bs) := by
  intro as_
  induction as_ with
  | nil => intro bs df; rfl
  | cons op rest ih =>
      intro bs df
      rw [List.cons_append]
      show (match execOp sampler matcher sel df op with
            | .error e => .error e
            | .ok df2 => runOps sampler matcher sel (rest ++ bs) df2) =
        exceptBind (match execOp sampler matcher sel df op with
            | .error e => .error e
            | .ok df2 => runOps sampler matcher sel rest df2)
          (runOps sampler matcher sel bs)
      cases execOp sampler matcher sel df op with
      | error e => rfl
      | ok df2 => exact ih bs df2

theorem strAppend_assoc (a b c : String) : (a ++ b) ++ c = a ++ (b ++ c) := by
  show (⟨(a.data ++ b.data) ++ c.data⟩ : String) = ⟨a.data ++ (b.data ++ c.data)⟩
  rw [List.append_assoc]

/-! ### Concrete tables used by the claim instances -/

/-- Two-row, one-column table. -/
def tblX : DataFrame := ⟨["x"], [[.vint 2], [.vint 1]]⟩

/-- Three-row grouping table. -/
def tblGV : DataFrame :=
  ⟨["g", "v"], [[.vint 1, .vint 10], [.vint 1, .vint 20], [.vint 2, .vint 30]]⟩

/-- Grouping table with a null group key in its first row. -/
def tblNull : DataFrame :=
  ⟨["g", "v"], [[.vnull, .vint 10], [.vint 1, .vint 20],
    [.vint 1, .vint 5], [.vint 2, .vint 30]]⟩

/-- Three-row, two-column table. -/
def tblXY : DataFrame :=
  ⟨["x", "y"], [[.vint 1, .vint 5], [.vint 2, .vint 1], [.vint 3, .vint 9]]⟩

/-- A trivial sampler (never consulted by the claims). -/
def noSampler : Sampler := fun _ _ => []

/-- A trivial regex oracle (never consulted: no claim instance uses a
`contains` condition). -/
def noRegex : ReSearch := fun _ => .error ("re.error")

/-- A trivial numeric-dtype selection oracle (never consulted: every
claim instance carries explicit aggregation specs or no summarize). -/
def selNoNum : NumSelect := fun _ _ => []

/-! ### Claim C8 -/

/-- Claim C8 (confirmed): `execute_query` leaves the engine's stored table
unchanged — it computes on a private copy of the held table and the
explicit engine state returned by the call equals the input state, whether
the call succeeds or fails; the source method never assigns `self.df`. -/
theorem c8_execute_query_pure (sampler : Sampler) (matcher : ReSearch)
    (sel : NumSelect) (e : Engine) (q : String) :
    (execute_query sampler matcher sel e q).2 = e := rfl

/-! ### Claim C1 -/

/-- Claim C1 counterexample: the unrecognized-keyword error is *not*
surfaced in the bare `Unknown function: <name>` form — the raise happens
inside the `try` of `execute_query`, so the caller sees it wrapped in the
same `Query execution error:` form as stage failures. -/
theorem c1_counterexample :
    (execute_query noSampler noRegex selNoNum ⟨tblX, ("Data")⟩
        ("take 1 | frobnicate")).1 =
      .error ("Query execution error: Unknown function: frobnicate") ∧
    ("Query execution error: Unknown function: frobnicate" : String) ≠
      "Unknown function: frobnicate" := by
  constructor
  · rfl
  · decide

/-- Claim C1 (corrected): a pipeline whose stages before the first
unrecognized keyword succeed produces no output table and surfaces the
single error `Query execution error: Unknown function: <name>` (wrapped,
not the bare form the spec describes). -/
theorem c1_unknown_function_atomic (sampler : Sampler)
    (matcher : ReSearch) (sel : NumSelect) (e : Engine)
    (q : String) (pre post : List Op) (op : Op) (t : DataFrame)
    (hparse : parseQuery q = pre ++ op :: post)
    (hunknown : knownStage op.fn = false)
    (hpre : runOps sampler matcher sel pre e.df = .ok t) :
    (execute_query sampler matcher sel e q).1 =
      .error ("Query execution error: Unknown function: " ++ op.fn) := by
  show ((match runOps sampler matcher sel (parseQuery q) e.df with
         | .ok r => .ok r
         | .error m => .error ("Query execution error: " ++ m)) :
        Except String DataFrame) = _
  rw [hparse, runOps_append sampler matcher sel pre (op :: post) e.df, hpre]
  show ((match ((match execOp sampler matcher sel t op with
                 | .error e => .error e
                 | .ok df2 => runOps sampler matcher sel post df2) :
                Except String DataFrame) with
         | .ok r => .ok r
         | .error m => .error ("Query execution error: " ++ m)) :
        Except String DataFrame) = _
  unfold execOp
  rw [hunknown]
  show Except.error ("Query execution error: " ++ ("Unknown function: " ++ op.fn)) =
    Except.error ("Query execution error: Unknown function: " ++ op.fn)
  rw [← strAppend_assoc]
  rfl

/-- Claim C1 witness: the two-stage pipeline `take 1 | frobnicate` on a
concrete table. -/
theorem c1_witness :
    (execute_query noSampler noRegex selNoNum ⟨tblX, ("Data")⟩
        ("take 1 | frobnicate")).1 =
      .error ("Query execution error: Unknown function: " ++ "frobnicate") :=
  c1_unknown_function_atomic noSampler noRegex selNoNum ⟨tblX, ("Data")⟩
    ("take 1 | frobnicate")
    ([⟨"take", [Value.vint 1], []⟩] : List Op) ([] : List Op)
    (⟨"frobnicate", [], []⟩ : Op) ⟨["x"], [[Value.vint 2]]⟩
    rfl rfl rfl

/-! ### Claim C2 -/

/-- Claim C2 (code_bug): a `summarize` argument with an aggregation spec
and no group-by columns does *not* reduce the table to one row — the
source calls `df.agg` on a dict keyed by the *result* column (`cnt`),
which pandas rejects because `cnt` is not a column, so the stage raises
instead of aggregating (for any numeric-dtype selection oracle; the call
can only avoid the `KeyError` when every result name is itself an
existing column, and even then produces one row per aggregation name,
never the documented single row).  Evaluated at the failing input. -/
theorem c2_summarize_no_groupby_raises (sel : NumSelect) :
    summarizeOp sel ⟨["v"], [[.vint 1]]⟩ [.vstr ("cnt=count(v)")] [] =
      .error ("Column(s) [cnt] do not exist") := rfl

/-! ### Claim C3 -/

/-- Claim C3 (code_bug): the pipeline stage `summarize cnt=count(v) by g`
returns the input table unchanged — the token contains `=`, so the
argument parser turns it into the *named* argument `cnt`, `_summarize`
receives no positional argument and falls through its `if not args`
guard; no grouping, no `cnt` column, and the conservation property fails.
(The source's own `get_query_examples` advertises this spelling.) -/
theorem c3_summarize_by_noop (sampler : Sampler) (matcher : ReSearch)
    (sel : NumSelect) :
    parseQuery ("summarize cnt=count(v) by g") =
      [⟨"summarize", [], [("cnt", .vstr ("count(v) by g"))]⟩] ∧
    (execute_query sampler matcher sel ⟨tblGV, ("Data")⟩
      ("summarize cnt=count(v) by g")).1 = .ok tblGV ∧
    tblGV.rows.length = 3 := ⟨rfl, rfl, rfl⟩

/-! ### Claim C9 -/

/-- Claim C9 counterexample: rewriting `==` to `=` is not idempotent, so a
condition containing `===` behaves differently from its rewritten form:
on a table where `x` holds the string `=5`, the condition `x===5` keeps
the row while its rewrite `x==5` drops it. -/
theorem c9_counterexample :
    (⟨replaceEq ("x===5").data⟩ : String) = "x==5" ∧
    whereOp noRegex ⟨["x"], [[.vstr ("=5")]]⟩ [.vstr ("x===5")] [] =
      .ok ⟨["x"], [[.vstr ("=5")]]⟩ ∧
    whereOp noRegex ⟨["x"], [[.vstr ("=5")]]⟩ [.vstr ("x==5")] [] =
      .ok ⟨["x"], []⟩ ∧
    (Except.ok (⟨["x"], [[.vstr ("=5")]]⟩ : DataFrame) :
        Except String DataFrame) ≠ .ok ⟨["x"], []⟩ := by
  refine ⟨rfl, rfl, rfl, ?_⟩
  intro h
  simp [DataFrame.mk.injEq] at h

/-- Claim C9 (corrected): `_where` first rewrites every `==` to `=`, so a
condition using `==` is interpreted exactly like the rewritten condition —
provided the rewritten string contains no residual `==` (no run of three
or more `=`), the two condition strings yield equal output tables. -/
theorem c9_double_equals_rewrite (matcher : ReSearch) (df : DataFrame)
    (c : String) (rest : List Value) (kw : List (String × Value))
    (h : hasPat ['=', '='] (replaceEq c.data) = false) :
    whereOp matcher df (.vstr c :: rest) kw =
      whereOp matcher df (.vstr ⟨replaceEq c.data⟩ :: rest) kw := by
  have h2 : replaceEq (replaceEq c.data) = replaceEq c.data :=
    replaceEq_of_not_hasPat h
  have h3 : whereConds ⟨replaceEq c.data⟩ = whereConds c := by
    unfold whereConds
    show (splitOnAnd (replaceEq (replaceEq c.data))).map _ = _
    rw [h2]
  show whereFilter matcher df c = whereFilter matcher df ⟨replaceEq c.data⟩
  unfold whereFilter
  rw [h3]

/-- Claim C9 witness: `x == 5` versus its rewrite `x = 5`. -/
theorem c9_witness :
    hasPat ['=', '='] (replaceEq ("x == 5").data) = false ∧
    whereOp noRegex tblGV [.vstr ("x == 5")] [] =
      whereOp noRegex tblGV [.vstr ⟨replaceEq ("x == 5").data⟩] [] :=
  ⟨by decide, c9_double_equals_rewrite noRegex tblGV ("x == 5") [] []
    (by decide)⟩

/-! ### Claim C7 -/

/-- Claim C7 (confirmed): the argument tokenizer tracks only parenthesis
depth, never quote state — for any raw argument string containing a comma
inside a quoted literal at depth `0`, the tokenizer splits at that comma:
with the text before the comma (opening quote included) reaching the comma
at depth `0` with emitted tokens `ts` and pending token `cur`, the token
list is `ts`, then the stripped pending text, then the tokens of the rest
(where the closing quote ends up inside a later token). -/
theorem c7_quoted_comma_missplit (p u v s : String)
    (ts : List String) (cur : List Char)
    (hrun : tokRun (p ++ "'" ++ u).data 0 [] = (ts, 0, cur)) :
    tokenizeArgs (p ++ "'" ++ u ++ "," ++ v ++ "'" ++ s) =
      ts ++ [strip ⟨cur⟩] ++ tokenizeArgs (v ++ "'" ++ s) := by
  have hdata : (p ++ "'" ++ u ++ "," ++ v ++ "'" ++ s).data =
      (p ++ "'" ++ u).data ++ ',' :: (v ++ "'" ++ s).data := by
    simp [String.data_append]
  unfold tokenizeArgs
  rw [hdata, tokRun_append (p ++ "'" ++ u).data (',' :: (v ++ "'" ++ s).data)
    0 [] ts 0 cur hrun]
  rw [show tokRun (',' :: (v ++ "'" ++ s).data) 0 cur =
    (strip ⟨cur⟩ :: (tokRun (v ++ "'" ++ s).data 0 []).1,
      (tokRun (v ++ "'" ++ s).data 0 []).2) from rfl]
  simp

/-- Claim C7 witness: `name='x,y'` is split into the two tokens
`name='x` and `y'`. -/
theorem c7_witness :
    tokenizeArgs ("name='x,y'") = ["name='x", "y'"] := by
  have h := c7_quoted_comma_missplit ("name=") ("x") ("y") ("") []
    (("name='x").data) rfl
  exact h

/-! ### Claim C6 -/

theorem hasPat_mid : ∀ (a b : List Char), hasPat ['='] (a ++ '=' :: b) = true := by
  intro a b
  induction a with
  | nil => simp [hasPat, List.isPrefixOf]
  | cons c cs ih => simp [hasPat, ih]

/-- Claim C6 (confirmed): an `extend` argument `name=expression` whose
expression evaluation fails (a missing column in a `tolower`/`toupper`
form, a malformed shape matching no branch, or an arithmetic `TypeError`)
is fail-silent: the stage still succeeds, the target column is simply not
added, and the result equals the extend with that argument removed — every
other column, pre-existing or computed by other arguments, is unaffected. -/
theorem c6_extend_fail_silent (df : DataFrame) (pre post : List Value)
    (name expr : String) (kw : List (String × Value))
    (hname : hasPat ['='] name.data = false)
    (hfail : extendEval df (strip expr) = none) :
    extendOp df (pre ++ .vstr (name ++ "=" ++ expr) :: post) kw =
      extendOp df (pre ++ post) kw := by
  have hstep : ∀ acc, extendStep df acc (.vstr (name ++ "=" ++ expr)) = acc := by
    intro acc
    simp only [extendStep]
    have hdata : (name ++ "=" ++ expr).data = name.data ++ '=' :: expr.data := by
      simp [String.data_append]
    rw [hdata, hasPat_mid, splitFirst_eq_append name.data expr.data hname]
    have hf2 : extendEval df (strip ⟨expr.data⟩) = none := hfail
    simp [hf2]
  unfold extendOp
  rw [List.foldl_append, List.foldl_append, List.foldl_cons, hstep]

/-- Claim C6 witness: `t=tolower(zz)` fails (no column `zz`) between two
other arguments and is dropped without affecting them. -/
theorem c6_witness :
    extendEval ⟨["a", "b"], [[.vint 1, .vint 4]]⟩ (strip ("tolower(zz)")) =
      none ∧
    extendOp ⟨["a", "b"], [[.vint 1, .vint 4]]⟩
        [.vstr ("s=a+b"), .vstr ("t=tolower(zz)"), .vstr ("u=a*b")] [] =
      extendOp ⟨["a", "b"], [[.vint 1, .vint 4]]⟩
        [.vstr ("s=a+b"), .vstr ("u=a*b")] [] :=
  ⟨rfl, c6_extend_fail_silent ⟨["a", "b"], [[.vint 1, .vint 4]]⟩
    [.vstr ("s=a+b")] [.vstr ("u=a*b")] ("t") ("tolower(zz)") []
    (by decide) rfl⟩

/-! ### Claim C4 -/

/-- Truth of one sub-condition text at one row: an unclassifiable
sub-condition is vacuously true (the source skips it), a classified one
holds when its evaluation succeeds with `True`. -/
def condHolds (matcher : ReSearch) (cols : List String) (c : String)
    (r : List Value) : Bool :=
  match parsePred c with
  | none => true
  | some p => okD (evalPred matcher cols p r) false

theorem okD_false_true {e : Except String Bool} (h : okD e false = true) :
    e = .ok true := by
  cases e with
  | error m => simp [okD] at h
  | ok b => simp [okD] at h; rw [h]

theorem zipWith_map_same (h : α → β → δ) (f : γ → α) (g : γ → β) :
    ∀ l : List γ,
    List.zipWith h (l.map f) (l.map g) = l.map (fun x => h (f x) (g x)) := by
  intro l
  induction l with
  | nil => rfl
  | cons x xs ih => simp [List.zipWith, ih]

theorem filterByMask_map (f : List Value → Bool) :
    ∀ rows : List (List Value),
    filterByMask rows (rows.map f) = rows.filter f := by
  intro rows
  induction rows with
  | nil => rfl
  | cons r rs ih =>
      unfold filterByMask at ih ⊢
      cases hf : f r with
      | true => simp [List.filter_cons, hf, ih]
      | false => simp [List.filter_cons, hf, ih]

theorem filterByMask_sublist :
    ∀ (rows : List (List Value)) (mask : List Bool),
    (filterByMask rows mask).Sublist rows := by
  intro rows
  induction rows with
  | nil => intro mask; simp [filterByMask]
  | cons r rs ih =>
      intro mask
      cases mask with
      | nil => simp [filterByMask]
      | cons b bs =>
          cases b with
          | true =>
              have he : filterByMask (r :: rs) (true :: bs) =
                  r :: filterByMask rs bs := by
                simp [filterByMask, List.filter_cons]
              rw [he]
              exact List.Sublist.cons₂ r (ih bs)
          | false =>
              have he : filterByMask (r :: rs) (false :: bs) =
                  filterByMask rs bs := by
                simp [filterByMask, List.filter_cons]
              rw [he]
              exact List.Sublist.cons r (ih bs)

theorem mapE_of_ok {f : α → Except String β} {g : α → β} :
    ∀ {l : List α}, (∀ x ∈ l, f x = .ok (g x)) →
    mapE f l = .ok (l.map g) := by
  intro l
  induction l with
  | nil => intro _; rfl
  | cons x xs ih =>
      intro h
      have hx := h x (by simp)
      have hxs := ih (fun y hy => h y (by simp [hy]))
      rw [mapE, hx, hxs]
      rfl

/-- A row-local sub-condition's successful mask equals the row-by-row
evaluation of its operator (the `contains` pattern compiles once, but the
per-row form agrees on success). -/
theorem predMask_rowLocal (matcher : ReSearch) (cols : List String)
    (rows : List (List Value)) (p : Pred) (ts : List Bool)
    (hl : rowLocalP p = true)
    (h : predMask matcher cols rows p = .ok ts) :
    mapE (fun r => testPred matcher p.op (cellAt cols p.col r) p.lit) rows =
      .ok ts := by
  unfold predMask at h
  rw [if_pos hl] at h
  by_cases hop : p.op = .pcontains
  · rw [if_pos hop] at h
    cases hm : matcher (pyStr p.lit) with
    | error e => rw [hm] at h; simp at h
    | ok f =>
        rw [hm] at h
        simp only [Except.ok.injEq] at h
        have hall : ∀ r ∈ rows,
            testPred matcher p.op (cellAt cols p.col r) p.lit =
              .ok (f (pyStr (cellAt cols p.col r))) := by
          intro r _
          rw [hop]
          show ((match matcher (pyStr p.lit) with
                 | .error e => .error e
                 | .ok f0 => .ok (f0 (pyStr (cellAt cols p.col r)))) :
                Except String Bool) = _
          rw [hm]
        rw [mapE_of_ok hall, h]
  · rw [if_neg hop] at h
    exact h

theorem whereRun_ok_mask (matcher : ReSearch) (cols : List String)
    (rows : List (List Value)) :
    ∀ (cs : List String) (g : List Value → Bool) (m : List Bool),
    (∀ c ∈ cs, (parsePred c).all rowLocalP = true) →
    whereRun matcher cols rows cs (rows.map g) = .ok m →
    m = rows.map (fun r =>
      g r && cs.all (fun c => condHolds matcher cols c r)) := by
  intro cs
  induction cs with
  | nil =>
      intro g m _ h
      rw [whereRun] at h
      simp only [Except.ok.injEq] at h
      simp [← h]
  | cons c cs ih =>
      intro g m hrl h
      rw [whereRun] at h
      cases hp : parsePred c with
      | none =>
          simp only [hp] at h
          rw [ih g m (fun c0 hc0 => hrl c0 (by simp [hc0])) h]
          simp [List.all_cons, condHolds, hp]
      | some p =>
          have hlp : rowLocalP p = true := by
            have := hrl c (by simp)
            rw [hp] at this
            simpa [Option.all] using this
          simp only [hp] at h
          by_cases hc : hasCol cols p.col = true
          · rw [if_pos hc] at h
            cases hm : predMask matcher cols rows p with
            | error e => rw [hm] at h; simp at h
            | ok ts =>
                simp only [hm] at h
                have hts := predMask_rowLocal matcher cols rows p ts hlp hm
                rw [mapE_ok hts false, zipWith_map_same] at h
                rw [ih _ m (fun c0 hc0 => hrl c0 (by simp [hc0])) h]
                apply List.map_congr_left
                intro r _
                simp [List.all_cons, condHolds, hp, evalPred, hc,
                  Bool.and_assoc]
          · rw [if_neg hc] at h
            simp at h

theorem whereRun_ok_colPresent (matcher : ReSearch) (cols : List String)
    (rows : List (List Value)) :
    ∀ (cs : List String) (mask : List Bool) (m : List Bool),
    whereRun matcher cols rows cs mask = .ok m →
    ∀ c ∈ cs, ∀ p, parsePred c = some p → hasCol cols p.col = true := by
  intro cs
  induction cs with
  | nil => intro mask m _ c hc; simp at hc
  | cons c0 cs ih =>
      intro mask m h c hc p hp
      rw [whereRun] at h
      rcases List.mem_cons.mp hc with hc | hc
      · subst hc
        simp only [hp] at h
        by_cases hcol : hasCol cols p.col = true
        · exact hcol
        · rw [if_neg hcol] at h; simp at h
      · cases hp0 : parsePred c0 with
        | none =>
            simp only [hp0] at h
            exact ih mask m h c hc p hp
        | some p0 =>
            simp only [hp0] at h
            by_cases hcol : hasCol cols p0.col = true
            · rw [if_pos hcol] at h
              cases hm : predMask matcher cols rows p0 with
              | error e => rw [hm] at h; simp at h
              | ok ts =>
                  rw [hm] at h
                  exact ih _ m h c hc p hp
            · rw [if_neg hcol] at h; simp at h

/-- Claim C4 counterexample: keeping is not always a property of the row —
a comparison against a parenthesised list literal is aligned with the rows
positionally by pandas, so of two *identical* rows one is kept and one is
dropped by `x == (1, 2)`; no row-local reading of "a row is kept iff all
sub-conditions hold" matches this output. -/
theorem c4_counterexample :
    whereOp noRegex ⟨["x"], [[.vint 1], [.vint 1]]⟩
        [.vstr ("x == (1, 2)")] [] =
      .ok ⟨["x"], [[.vint 1]]⟩ ∧
    (∀ r ∈ (⟨["x"], [[.vint 1], [.vint 1]]⟩ : DataFrame).rows,
      r = [Value.vint 1]) :=
  ⟨rfl, by decide⟩

/-- Claim C4 (corrected): for a `where` stage with a string condition,
(1) on success the output columns are unchanged and the output rows are a
subsequence of the input rows, so the output row count is at most the
input row count; when moreover no sub-condition compares against a
parenthesised list literal (pandas aligns such a literal with the rows
positionally, so keeping is positional — see the counterexample), the
output rows are exactly the input rows on which every sub-condition
holds, and every output row satisfies each classified sub-condition with
an explicit `True`; and (2) a classified sub-condition referencing a
column not present in the table makes the whole stage fail. -/
theorem c4_where_soundness (matcher : ReSearch) (df : DataFrame)
    (cond : String) (rest : List Value) (kw : List (String × Value)) :
    (∀ t', whereOp matcher df (.vstr cond :: rest) kw = .ok t' →
      t'.cols = df.cols ∧ t'.rows.Sublist df.rows ∧
      t'.rows.length ≤ df.rows.length ∧
      ((∀ c ∈ whereConds cond, (parsePred c).all rowLocalP = true) →
        t'.rows = df.rows.filter (fun r =>
          (whereConds cond).all (fun c => condHolds matcher df.cols c r)) ∧
        (∀ r ∈ t'.rows, ∀ c ∈ whereConds cond, ∀ p, parsePred c = some p →
          evalPred matcher df.cols p r = .ok true))) ∧
    ((∃ c ∈ whereConds cond, ∃ p, parsePred c = some p ∧
        hasCol df.cols p.col = false) →
      ∃ msg, whereOp matcher df (.vstr cond :: rest) kw = .error msg) := by
  constructor
  · intro t' h
    have h2 : whereFilter matcher df cond = .ok t' := h
    unfold whereFilter at h2
    cases hw : whereRun matcher df.cols df.rows (whereConds cond)
        (df.rows.map (fun _ => true)) with
    | error e => rw [hw] at h2; simp at h2
    | ok mask =>
        rw [hw] at h2
        simp only [Except.ok.injEq] at h2
        have hcols : t'.cols = df.cols := by rw [← h2]
        have hrows0 : t'.rows = filterByMask df.rows mask := by rw [← h2]
        have hsub : t'.rows.Sublist df.rows := by
          rw [hrows0]
          exact filterByMask_sublist df.rows mask
        refine ⟨hcols, hsub, hsub.length_le, ?_⟩
        intro hrl
        have hmask := whereRun_ok_mask matcher df.cols df.rows
          (whereConds cond) (fun _ => true) mask hrl hw
        have hrows : t'.rows = df.rows.filter (fun r =>
            (whereConds cond).all (fun c =>
              condHolds matcher df.cols c r)) := by
          rw [hrows0, hmask]
          have he : (fun r => true && (whereConds cond).all
              (fun c => condHolds matcher df.cols c r)) = (fun r =>
              (whereConds cond).all (fun c =>
                condHolds matcher df.cols c r)) := by
            funext r
            simp
          rw [he, filterByMask_map]
        refine ⟨hrows, ?_⟩
        intro r hr c hc p hp
        rw [hrows] at hr
        have hall := List.of_mem_filter hr
        have hcr : condHolds matcher df.cols c r = true :=
          List.all_eq_true.mp hall c hc
        unfold condHolds at hcr
        rw [hp] at hcr
        exact okD_false_true hcr
  · rintro ⟨c, hc, p, hp, hcol⟩
    show ∃ msg, whereFilter matcher df cond = .error msg
    unfold whereFilter
    cases hw : whereRun matcher df.cols df.rows (whereConds cond)
        (df.rows.map (fun _ => true)) with
    | error e => exact ⟨e, rfl⟩
    | ok mask =>
        have := whereRun_ok_colPresent matcher df.cols df.rows
          (whereConds cond) _ mask hw c hc p hp
        rw [this] at hcol
        cases hcol

/-- Claim C4 witness: `x > 1 and y > 2` (scalar literals only) filters a
concrete table down to its satisfying rows, and `zz > 1` on the same
table fails. -/
theorem c4_witness :
    (⟨["x", "y"], [[Value.vint 3, Value.vint 9]]⟩ : DataFrame).rows =
      tblXY.rows.filter (fun r => (whereConds ("x > 1 and y > 2")).all
        (fun c => condHolds noRegex tblXY.cols c r)) ∧
    (∃ msg, whereOp noRegex tblXY [.vstr ("zz > 1")] [] = .error msg) := by
  constructor
  · exact (((c4_where_soundness noRegex tblXY ("x > 1 and y > 2") [] []).1
      ⟨["x", "y"], [[Value.vint 3, Value.vint 9]]⟩ rfl).2.2.2 (by decide)).1
  · exact (c4_where_soundness noRegex tblXY ("zz > 1") [] []).2
      ⟨"zz > 1", by decide, ⟨"zz", .pgt, .vint 1⟩, rfl, rfl⟩

/-! ### Claim C10 -/

theorem mapE_congr {f g : α → Except String β} :
    ∀ {l : List α}, (∀ x ∈ l, f x = g x) → mapE f l = mapE g l := by
  intro l
  induction l with
  | nil => intro _; rfl
  | cons x xs ih =>
      intro h
      rw [mapE, mapE, h x (by simp), ih (fun y hy => h y (by simp [hy]))]

theorem mapE_mem {f : α → Except String β} :
    ∀ {l : List α} {ys : List β}, mapE f l = .ok ys →
    ∀ y ∈ ys, ∃ x ∈ l, f x = .ok y := by
  intro l
  induction l with
  | nil =>
      intro ys h y hy
      rw [mapE] at h
      simp only [Except.ok.injEq] at h
      rw [← h] at hy
      simp at hy
  | cons x xs ih =>
      intro ys h y hy
      rw [mapE] at h
      cases hx : f x with
      | error e => rw [hx] at h; simp at h
      | ok b =>
          rw [hx] at h
          cases hxs : mapE f xs with
          | error e => rw [hxs] at h; simp at h
          | ok ys0 =>
              rw [hxs] at h
              simp only [Except.ok.injEq] at h
              rw [← h] at hy
              rcases List.mem_cons.mp hy with hy | hy
              · exact ⟨x, by simp, by rw [hx, hy]⟩
              · obtain ⟨x0, hx0, hfx0⟩ := ih hxs y hy
                exact ⟨x0, by simp [hx0], hfx0⟩

theorem dedupBy_subset (key : α → β) [BEq β] :
    ∀ (l : List α) (seen : List β) (x : α),
    x ∈ dedupBy key l seen → x ∈ l := by
  intro l
  induction l with
  | nil => intro seen x h; simp [dedupBy] at h
  | cons y ys ih =>
      intro seen x h
      unfold dedupBy at h
      by_cases hs : (seen.any (fun k => k == key y)) = true
      · rw [if_pos hs] at h
        exact List.mem_cons.mpr (Or.inr (ih seen x h))
      · rw [if_neg hs] at h
        rcases List.mem_cons.mp h with h | h
        · exact List.mem_cons.mpr (Or.inl h)
        · exact List.mem_cons.mpr (Or.inr (ih _ x h))

theorem mem_insSort (le : α → α → Bool) (l : List α) (x : α) :
    x ∈ insSort le l ↔ x ∈ l :=
  (insSort_perm le l).mem_iff

theorem mem_groupKeys (cols : List String) (rows : List (List Value))
    (gb : List String) (k : List Value)
    (h : k ∈ groupKeys cols rows gb) :
    (k.any isNullV) = false ∧ k.length = gb.length := by
  unfold groupKeys at h
  rw [mem_insSort] at h
  have h2 := dedupBy_subset id _ _ _ h
  rw [List.mem_filter] at h2
  obtain ⟨hmem, hq⟩ := h2
  constructor
  · cases hn : k.any isNullV with
    | false => rfl
    | true => rw [hn] at hq; simp at hq
  · obtain ⟨r, _, hr⟩ := List.mem_map.mp hmem
    rw [← hr]
    unfold keyCells
    rw [List.length_map]

theorem keys_filter_eq (cols gb : List String) :
    ∀ rows : List (List Value),
    ((rows.filter (fun r => !((keyCells cols gb r).any isNullV))).map
      (fun r => keyCells cols gb r)).filter (fun k => !(k.any isNullV)) =
    (rows.map (fun r => keyCells cols gb r)).filter
      (fun k => !(k.any isNullV)) := by
  intro rows
  induction rows with
  | nil => rfl
  | cons r rs ih =>
      cases hq : (keyCells cols gb r).any isNullV with
      | true => simp [List.filter_cons, hq, ih]
      | false => simp [List.filter_cons, hq, ih]

theorem rows_filter_eq (cols gb : List String) (k : List Value)
    (hk : (k.any isNullV) = false) :
    ∀ rows : List (List Value),
    (rows.filter (fun r => !((keyCells cols gb r).any isNullV))).filter
      (fun r => keyCells cols gb r == k) =
    rows.filter (fun r => keyCells cols gb r == k) := by
  intro rows
  induction rows with
  | nil => rfl
  | cons r rs ih =>
      cases hq : (keyCells cols gb r).any isNullV with
      | true =>
          have hbeq : (keyCells cols gb r == k) = false := by
            cases hbeq : (keyCells cols gb r == k) with
            | false => rfl
            | true =>
                rw [eq_of_beq hbeq] at hq
                rw [hq] at hk
                cases hk
          simp [List.filter_cons, hq, hbeq, ih]
      | false =>
          cases hbeq : (keyCells cols gb r == k) with
          | true => simp [List.filter_cons, hq, hbeq, ih]
          | false => simp [List.filter_cons, hq, hbeq, ih]

/-- The `dropna=True` of `groupby`: removing the rows whose group key
contains a null changes neither the key list nor any group's row set,
hence not the grouped aggregation. -/
theorem applyGroupby_dropNull (cols : List String)
    (rows : List (List Value)) (aggs : List AggSpec) (gb : List String) :
    applyGroupby cols rows aggs gb =
      applyGroupby cols (rows.filter (fun r =>
        !((keyCells cols gb r).any isNullV))) aggs gb := by
  have hkeys : groupKeys cols (rows.filter (fun r =>
      !((keyCells cols gb r).any isNullV))) gb = groupKeys cols rows gb := by
    unfold groupKeys
    rw [keys_filter_eq]
  have hrows : ∀ k, k ∈ groupKeys cols rows gb →
      groupRows cols (rows.filter (fun r =>
        !((keyCells cols gb r).any isNullV))) gb k =
      groupRows cols rows gb k := by
    intro k hk
    unfold groupRows
    exact rows_filter_eq cols gb k (mem_groupKeys cols rows gb k hk).1 rows
  have hmap : mapE (fun k =>
      (mapE (fun a => evalAgg a.fn
        ((groupRows cols (rows.filter (fun r =>
          !((keyCells cols gb r).any isNullV))) gb k).map
          (fun r => cellAt cols a.srcCol r)))
        aggs).map (fun vals => k ++ vals)) (groupKeys cols rows gb) =
    mapE (fun k =>
      (mapE (fun a => evalAgg a.fn
        ((groupRows cols rows gb k).map (fun r => cellAt cols a.srcCol r)))
        aggs).map (fun vals => k ++ vals)) (groupKeys cols rows gb) := by
    apply mapE_congr
    intro k hk
    rw [hrows k hk]
  unfold applyGroupby
  rw [hkeys, hmap]

/-- Any successful grouped aggregation emits only null-free group keys,
whatever the aggregation specs: every output row starts with its group's
key cells, drawn from `groupKeys`, which drops null-containing keys
(`dropna=True`). -/
theorem applyGroupby_ok_nullfree (cols : List String)
    (rows : List (List Value)) (aggs : List AggSpec) (gb : List String)
    (t' : DataFrame) (h : applyGroupby cols rows aggs gb = .ok t') :
    ∀ r ∈ t'.rows, ∀ v ∈ r.take gb.length, v ≠ .vnull := by
  unfold applyGroupby at h
  cases hfind : gb.find? (fun g => !(hasCol cols g)) with
  | some g => rw [hfind] at h; simp at h
  | none =>
      rw [hfind] at h
      by_cases he : aggs.isEmpty = true
      · rw [if_pos he] at h; simp at h
      · rw [if_neg he] at h
        by_cases hmiss : (!((aggs.map AggSpec.srcCol).filter
            (fun c => !(hasCol cols c))).isEmpty) = true
        · rw [if_pos hmiss] at h; simp at h
        · rw [if_neg hmiss] at h
          cases hmap : mapE (fun k =>
              (mapE (fun a => evalAgg a.fn
                ((groupRows cols rows gb k).map
                  (fun r => cellAt cols a.srcCol r)))
                aggs).map (fun vals => k ++ vals))
              (groupKeys cols rows gb) with
          | error e => rw [hmap] at h; simp at h
          | ok newRows =>
              rw [hmap] at h
              simp only [Except.ok.injEq] at h
              intro r hr v hv
              have hrows : t'.rows = newRows := by rw [← h]
              rw [hrows] at hr
              obtain ⟨k, hkmem, hfk⟩ := mapE_mem hmap r hr
              obtain ⟨hknull, hklen⟩ :=
                mem_groupKeys cols rows gb k hkmem
              cases hinner : mapE (fun a => evalAgg a.fn
                  ((groupRows cols rows gb k).map
                    (fun r => cellAt cols a.srcCol r))) aggs with
              | error e => rw [hinner] at hfk; simp [Except.map] at hfk
              | ok vals =>
                  rw [hinner] at hfk
                  simp only [Except.map, Except.ok.injEq] at hfk
                  rw [← hfk] at hv
                  rw [← hklen, List.take_left] at hv
                  have := List.any_eq_false.mp hknull v hv
                  intro heq
                  rw [heq] at this
                  simp [isNullV] at this

/-- Claim C10 (confirmed): a `summarize` stage with at least one group-by
column silently excludes every row whose group key contains a null: the
stage equals the same grouped aggregation — with the aggregation dict the
source builds from the *input* frame, explicit specs or the default
numeric-dtype means — applied to the table with the null-keyed rows
removed (those rows contribute to no group and to no aggregate, `count`
included), and no output row of a successful stage carries a null group
key. -/
theorem c10_summarize_null_group_keys (sel : NumSelect) (df : DataFrame)
    (arg : String) (rest : List Value) (kw : List (String × Value))
    (hgb : (parseSummarize arg).2 ≠ []) :
    summarizeOp sel df (.vstr arg :: rest) kw =
      applyGroupby df.cols (df.rows.filter (fun r =>
        !((keyCells df.cols (parseSummarize arg).2 r).any isNullV)))
        (aggsOf sel df arg) (parseSummarize arg).2 ∧
    (∀ t', summarizeOp sel df (.vstr arg :: rest) kw = .ok t' →
      ∀ r ∈ t'.rows, ∀ v ∈ r.take (parseSummarize arg).2.length,
        v ≠ .vnull) := by
  have hge : (parseSummarize arg).2.isEmpty = false := by
    cases hpp : (parseSummarize arg).2 with
    | nil => exact absurd hpp hgb
    | cons a l => simp
  have hform : summarizeOp sel df (.vstr arg :: rest) kw =
      applyGroupby df.cols df.rows (aggsOf sel df arg)
        (parseSummarize arg).2 := by
    unfold summarizeOp
    simp only [hge, Bool.false_eq_true, if_false]
  constructor
  · rw [hform]
    exact applyGroupby_dropNull df.cols df.rows _ _
  · intro t' h
    rw [hform] at h
    exact applyGroupby_ok_nullfree df.cols df.rows _ _ t' h

/-- Claim C10 witness: a null `g` cell contributes to no group of
`cnt=count(v), g` — the stage equals the grouped aggregation applied to
the table with that row removed. -/
theorem c10_witness :
    summarizeOp selNoNum tblNull [.vstr ("cnt=count(v), g")] [] =
      applyGroupby tblNull.cols (tblNull.rows.filter (fun r =>
        !((keyCells tblNull.cols
            (parseSummarize ("cnt=count(v), g")).2 r).any isNullV)))
        (aggsOf selNoNum tblNull ("cnt=count(v), g"))
        (parseSummarize ("cnt=count(v), g")).2 :=
  (c10_summarize_null_group_keys selNoNum tblNull ("cnt=count(v), g") [] []
    (by decide)).1

/-! ### Claim C5 -/

theorem ascExcept_ok {kw : List (String × Value)} {b : Bool}
    (h : ascExcept kw = .ok b) : b = ascOf kw := by
  unfold ascExcept at h
  unfold ascOf
  cases hlk : lookupKw kw ("order") with
  | none =>
      rw [hlk] at h
      simp only [Except.ok.injEq] at h
      rw [← h]
  | some v =>
      rw [hlk] at h
      cases v with
      | vstr o =>
          simp only [Except.ok.injEq] at h
          rw [← h]
      | vnull => simp at h
      | vbool b0 => simp at h
      | vint n => simp at h
      | vfloat q => simp at h
      | vlist l => simp at h

theorem sortValues_ok (df : DataFrame) (asc : Bool) (columns : List Value)
    (t' : DataFrame) (h : sortValues df asc columns = .ok t') :
    t' = ⟨df.cols, insSort (sortLe asc df.cols (columns.filterMap (fun v =>
      match v with
      | .vstr s => some s
      | _ => none))) df.rows⟩ := by
  unfold sortValues at h
  cases hf : columns.find? (fun v =>
      match v with
      | .vstr s => !(hasCol df.cols s)
      | _ => true) with
  | some bad => rw [hf] at h; simp at h
  | none =>
      rw [hf] at h
      by_cases hs : ((columns.filterMap (fun v =>
          match v with
          | .vstr s => some s
          | _ => none)).all (fun c => sortableCol df c)) = true
      · rw [if_pos hs] at h
        simp only [Except.ok.injEq] at h
        rw [← h]
      · rw [if_neg hs] at h; simp at h

/-- Claim C5 counterexample: the spec's own spelling `sort by x` does not
produce a sorted table at all — `by x` is one bare token, taken as a
single missing column name, and the stage fails with a `KeyError`. -/
theorem c5_counterexample :
    parseQuery ("sort by x") = [⟨"sort", [.vstr ("by x")], []⟩] ∧
    (execute_query noSampler noRegex selNoNum ⟨tblX, ("Data")⟩
        ("sort by x")).1 =
      .error ("Query execution error: KeyError: by x") := ⟨rfl, rfl⟩

/-- Claim C5 (corrected): `sort` over column-name arguments (the `by`
keyword is not supported: `sort by x` fails as shown by the
counterexample) sorts the rows lexicographically over the listed columns —
nondecreasing for the default ascending order, reversed within non-null
values when the named argument `order` is `desc` case-insensitively — the
output being a permutation of the input with unchanged columns; when two
or more columns are listed (the stable `np.lexsort` path — a single
column defaults to quicksort, whose tie order pandas leaves unspecified),
rows with equal sort keys keep their original relative order. -/
theorem c5_sort_sorted_stable (df : DataFrame) (args : List Value)
    (kw : List (String × Value)) (t' : DataFrame)
    (hargs : args ≠ [])
    (h : sortOp df args kw = .ok t') :
    t'.rows.Pairwise (fun r s =>
      sortLe (ascOf kw) df.cols (sortColsOf args) r s = true) ∧
    (2 ≤ (sortColsOf args).length →
      ∀ ks, t'.rows.filter (fun r =>
          sortKey df.cols (sortColsOf args) r == ks) =
        df.rows.filter (fun r =>
          sortKey df.cols (sortColsOf args) r == ks)) ∧
    t'.cols = df.cols ∧ t'.rows.Perm df.rows := by
  have ht' : t' = ⟨df.cols,
      insSort (sortLe (ascOf kw) df.cols (sortColsOf args)) df.rows⟩ := by
    cases args with
    | nil => exact absurd rfl hargs
    | cons a as_ =>
        unfold sortOp at h
        cases hasc : ascExcept kw with
        | error e => rw [hasc] at h; simp at h
        | ok b =>
            rw [hasc] at h
            rw [ascExcept_ok hasc] at h
            exact sortValues_ok df (ascOf kw) (flattenArgs (a :: as_)) t' h
  have htot : ∀ r s, (sortLe (ascOf kw) df.cols (sortColsOf args) r s ||
      sortLe (ascOf kw) df.cols (sortColsOf args) s r) = true :=
    fun r s => cmpLe_total (cmpRow_pack (ascOf kw))
      (sortKey df.cols (sortColsOf args) r)
      (sortKey df.cols (sortColsOf args) s)
  have htr : ∀ r s t, sortLe (ascOf kw) df.cols (sortColsOf args) r s = true →
      sortLe (ascOf kw) df.cols (sortColsOf args) s t = true →
      sortLe (ascOf kw) df.cols (sortColsOf args) r t = true :=
    fun r s t h1 h2 => cmpLe_trans (cmpRow_pack (ascOf kw))
      (sortKey df.cols (sortColsOf args) r)
      (sortKey df.cols (sortColsOf args) s)
      (sortKey df.cols (sortColsOf args) t) h1 h2
  rw [ht']
  refine ⟨?_, ?_, rfl, ?_⟩
  · exact insSort_pairwise htot htr df.rows
  · intro _ ks
    apply filter_insSort
    intro r s hr hs
    have h1 : sortKey df.cols (sortColsOf args) r = ks := eq_of_beq hr
    have h2 : sortKey df.cols (sortColsOf args) s = ks := eq_of_beq hs
    show cmpLe (cmpRow (ascOf kw)) (sortKey df.cols (sortColsOf args) r)
      (sortKey df.cols (sortColsOf args) s) = true
    rw [h1, h2]
    exact cmpLe_refl_of_eq (cmpRow_pack (ascOf kw)) ks
  · exact insSort_perm _ df.rows

/-- Unsorted two-column table with a duplicated first key. -/
def tblSort2 : DataFrame :=
  ⟨["x", "y"], [[.vint 2, .vint 9], [.vint 1, .vint 8], [.vint 2, .vint 7]]⟩

/-- Its sorted form. -/
def tblSorted2 : DataFrame :=
  ⟨["x", "y"], [[.vint 1, .vint 8], [.vint 2, .vint 7], [.vint 2, .vint 9]]⟩

/-- Claim C5 witness: `sort x, y` on a concrete table, instantiating the
sortedness, multi-column stability and permutation conclusions. -/
theorem c5_witness :
    tblSorted2.rows.Pairwise (fun r s =>
      sortLe (ascOf []) tblSort2.cols
        (sortColsOf [.vstr ("x"), .vstr ("y")]) r s = true) ∧
    (2 ≤ (sortColsOf [.vstr ("x"), .vstr ("y")]).length →
      ∀ ks, tblSorted2.rows.filter (fun r =>
          sortKey tblSort2.cols
            (sortColsOf [.vstr ("x"), .vstr ("y")]) r == ks) =
        tblSort2.rows.filter (fun r =>
          sortKey tblSort2.cols
            (sortColsOf [.vstr ("x"), .vstr ("y")]) r == ks)) ∧
    tblSorted2.cols = tblSort2.cols ∧ tblSorted2.rows.Perm tblSort2.rows :=
  c5_sort_sorted_stable tblSort2 [.vstr ("x"), .vstr ("y")] [] tblSorted2
    (by simp) rfl

end KE
